import Mathlib

/-!
# Verification of the time-logging tracker core

A shallow embedding of the timer state machine (`TimerService` in the
extension host, `src/services/timerService.ts`) and of the sync
reconciler (`handleSync` in `src/components/TimeEntries.tsx` together
with `AzureDevOpsService.updateCompletedWork` in
`src/services/azureDevOps.ts` and the `markEntriesSynced` / `addSyncLog`
operations of `src/services/database.ts`).

Modelling conventions:
* instants (`Date` values / ISO timestamp strings) are modelled by their
  epoch value in milliseconds, as an `Int`; every method that reads the
  clock takes the current instant `now` as an explicit argument;
* JavaScript numbers holding hour totals are modelled as rationals `ℚ`
  (the arithmetic performed is addition and division by 60 only);
* `Math.floor (x / d)` on an integer `x` and positive `d` is `Int.fdiv`;
  `Math.round (x / d)` rounds half toward positive infinity, which for
  even `d` is `Int.fdiv (x + d / 2) d`;
* `crypto.randomUUID()` results are supplied by the caller (`newId`
  arguments / an id-supply function);
* the mutable fields of the `TimerService` class become a state record
  threaded through the methods; the network becomes an explicit remote
  work-item store plus a `patchOk` oracle deciding whether a PATCH
  request succeeds.
-/

namespace TimeLogging

/-- `WorkItem` as defined in `src/services/types.ts` (extension host).
`url` and `assignedTo` are carried verbatim; they play no role in the
timer logic. -/
structure WorkItem where
  id : Nat
  title : String
  type : String
  state : String
  projectName : String
  organizationId : String
  assignedTo : Option String := none
  url : String := ""
deriving Repr, DecidableEq

/-- `AdoOrganization` from `src/services/types.ts`; `createdAt` /
`updatedAt` ISO strings are modelled as instants. -/
structure AdoOrganization where
  id : String
  name : String
  url : String
  projectName : String
  patToken : String
  isDefault : Option Bool := none
  createdAt : Int := 0
  updatedAt : Int := 0
deriving Repr, DecidableEq

/-- `TimeEntry` from `src/services/types.ts`; ISO timestamp strings are
modelled as instants (ms since epoch). -/
structure TimeEntry where
  id : String
  workItemId : Nat
  workItemTitle : String
  workItemType : String
  projectName : String
  organizationId : String
  organizationName : String
  startTime : Int
  endTime : Int
  durationMinutes : Int
  description : Option String := none
  syncedToAdo : Bool
  syncedAt : Option Int := none
  createdAt : Int
  updatedAt : Int
deriving Repr, DecidableEq

/-- The mutable timer fields of the `TimerService` class
(`_isRunning`, `_isPaused`, `_startTime`, `_pausedTime`, `_pauseStart`,
`_currentWorkItem`). -/
structure TimerServiceState where
  isRunning : Bool
  isPaused : Bool
  startTime : Option Int
  pausedTime : Int
  pauseStart : Option Int
  currentWorkItem : Option WorkItem
deriving Repr, DecidableEq

/-- Field initializers of `TimerService`: not running, not paused, no
start time, zero accumulated pause, no open pause, no work item. -/
def TimerServiceState.initial : TimerServiceState :=
  { isRunning := false
    isPaused := false
    startTime := none
    pausedTime := 0
    pauseStart := none
    currentWorkItem := none }

/-- `Math.round (ms / 60000)`: nearest whole minute for a millisecond
duration, half rounded toward positive infinity
(`⌊ms / 60000 + 1 / 2⌋ = ⌊(ms + 30000) / 60000⌋`). -/
def msToRoundedMinutes (ms : Int) : Int :=
  Int.fdiv (ms + 30000) 60000

/-- `Math.round (s / 60)` for a duration in whole seconds: the form in
which the specification states the duration policy. -/
def secondsToRoundedMinutes (s : Int) : Int :=
  Int.fdiv (s + 30) 60

/-- The `elapsedSeconds` getter: `0` with no start time; otherwise
`now - startTime - pausedTime`, minus the open pause interval when
paused, floored to whole seconds. -/
def elapsedSeconds (now : Int) (s : TimerServiceState) : Int :=
  match s.startTime with
  | none => 0
  | some st =>
    let elapsed := now - st - s.pausedTime
    let elapsed :=
      match s.pauseStart with
      | some ps => if s.isPaused then elapsed - (now - ps) else elapsed
      | none => elapsed
    Int.fdiv elapsed 1000

/-- `TimerService.start(workItem)`: unconditionally installs the work
item, enters Running/not-paused, sets `startTime := now`, clears the
accumulated pause and the open pause. -/
def start (now : Int) (workItem : WorkItem) (_s : TimerServiceState) :
    TimerServiceState :=
  { isRunning := true
    isPaused := false
    startTime := some now
    pausedTime := 0
    pauseStart := none
    currentWorkItem := some workItem }

/-- `TimerService.pause()`: early return when not running or already
paused; otherwise enters Paused and records the pause start. -/
def pause (now : Int) (s : TimerServiceState) : TimerServiceState :=
  if !s.isRunning || s.isPaused then s
  else { s with isPaused := true, pauseStart := some now }

/-- `TimerService.resume()`: early return when not running, not paused
or no recorded pause start; otherwise folds the open pause interval into
`pausedTime`, clears the pause start and re-enters Running. -/
def resume (now : Int) (s : TimerServiceState) : TimerServiceState :=
  match s.pauseStart with
  | none => s
  | some ps =>
    if !s.isRunning || !s.isPaused then s
    else
      { s with pausedTime := s.pausedTime + (now - ps)
               isPaused := false
               pauseStart := none }

/-- The accumulated paused milliseconds as computed at the top of
`stop()`: the stored `_pausedTime`, plus the open interval
`now - pauseStart` when currently paused (`if (this._isPaused &&
this._pauseStart)`). -/
def effectivePausedMs (now : Int) (s : TimerServiceState) : Int :=
  match s.pauseStart with
  | some ps => if s.isPaused then s.pausedTime + (now - ps) else s.pausedTime
  | none => s.pausedTime

/-- `StateService.addTimeEntry`: pushes the entry at the end of the
stored list. -/
def addTimeEntry (entry : TimeEntry) (entries : List TimeEntry) :
    List TimeEntry :=
  entries ++ [entry]

/-- The `TimeEntry` record built inside `stop()`: the session's work
item, its time window, the rounded duration, `syncedToAdo := false`,
and the organization name looked up among the stored organizations
(`"Unknown"` when absent). -/
def stopEntry (newId : String) (orgs : List AdoOrganization) (wi : WorkItem)
    (st now durationMinutes : Int) : TimeEntry :=
  let org := orgs.find? (fun o => o.id == wi.organizationId)
  { id := newId
    workItemId := wi.id
    workItemTitle := wi.title
    workItemType := wi.type
    projectName := wi.projectName
    organizationId := wi.organizationId
    organizationName := (org.map (fun o => o.name)).getD "Unknown"
    startTime := st
    endTime := now
    durationMinutes := durationMinutes
    syncedToAdo := false
    createdAt := now
    updatedAt := now }

/-- `TimerService.stop()`. Returns the state after the call, the ledger
(`StateService` entry list) after the call, and the return value.
Early `null` return when not running, no start time or no work item;
otherwise the open pause is folded in, `durationMs = now - startTime -
pausedTime` is rounded to minutes, sessions rounding below one minute
are discarded (`reset()`, `null`), and otherwise a fresh unsynced entry
is appended to the ledger and returned, after `reset()`. -/
def stop (now : Int) (newId : String) (orgs : List AdoOrganization)
    (s : TimerServiceState) (ledger : List TimeEntry) :
    TimerServiceState × List TimeEntry × Option TimeEntry :=
  match s.isRunning, s.startTime, s.currentWorkItem with
  | true, some st, some wi =>
    let pausedTime := effectivePausedMs now s
    let durationMs := now - st - pausedTime
    let durationMinutes := msToRoundedMinutes durationMs
    if durationMinutes < 1 then (TimerServiceState.initial, ledger, none)
    else
      let entry := stopEntry newId orgs wi st now durationMinutes
      (TimerServiceState.initial, addTimeEntry entry ledger, some entry)
  | _, _, _ => (s, ledger, none)

/-- The shape persisted by `StateService.saveTimerState` /
read back by `getTimerState`. -/
structure SavedTimerState where
  isRunning : Bool
  isPaused : Bool
  startTime : Option Int
  pausedTime : Int
  workItem : Option WorkItem
deriving Repr, DecidableEq

/-- `TimerService.persistState()`: while running, a snapshot of the five
persisted fields; otherwise `null`. -/
def persistOf (s : TimerServiceState) : Option SavedTimerState :=
  if s.isRunning then
    some { isRunning := s.isRunning
           isPaused := s.isPaused
           startTime := s.startTime
           pausedTime := s.pausedTime
           workItem := s.currentWorkItem }
  else none

/-- `TimerService.restoreState()`: early return (state untouched) when
there is no snapshot or it is not running or lacks a start time or work
item; otherwise rehydrates the five fields and, when the snapshot was
paused, sets the pause start to the restore instant. -/
def restoreState (now : Int) (saved : Option SavedTimerState)
    (s : TimerServiceState) : TimerServiceState :=
  match saved with
  | none => s
  | some sv =>
    match sv.isRunning, sv.startTime, sv.workItem with
    | true, some st, some wi =>
      let s' :=
        { s with isRunning := true
                 isPaused := sv.isPaused
                 startTime := some st
                 pausedTime := sv.pausedTime
                 currentWorkItem := some wi }
      if sv.isPaused then { s' with pauseStart := some now } else s'
    | _, _, _ => s

/-! ## Sync reconciler (web app `handleSync` and its collaborators)

The remote side is a store of work items keyed by organization id and
work item id, each carrying its `CompletedWork` hours (absent when the
field was never set), together with a `patchOk` oracle describing which
PATCH requests the network lets through. -/

/-- A remote work item as far as `updateCompletedWork` observes it:
its key and the current `CompletedWork` hours. -/
structure RemoteWorkItem where
  orgId : String
  id : Nat
  completedWork : Option ℚ
deriving Repr, DecidableEq

/-- A `PATCH` request for the `CompletedWork` field, as issued by
`updateCompletedWork`: target work item and the value written. -/
structure PatchCall where
  orgId : String
  workItemId : Nat
  value : ℚ
deriving Repr, DecidableEq

/-- The `{ success, newTotal, error }` result of
`AzureDevOpsService.updateCompletedWork`. -/
structure UpdateResult where
  success : Bool
  newTotal : ℚ
  error : Option String
deriving Repr, DecidableEq

/-- Work-item lookup on the remote store (`getWorkItem`). -/
def getRemoteItem (remote : List RemoteWorkItem) (orgId : String)
    (wiId : Nat) : Option RemoteWorkItem :=
  remote.find? (fun r => r.orgId == orgId && r.id == wiId)

/-- The effect of a successful `PATCH`: the targeted item's
`CompletedWork` becomes the written value; nothing else changes. -/
def setRemoteCompletedWork (remote : List RemoteWorkItem) (orgId : String)
    (wiId : Nat) (value : ℚ) : List RemoteWorkItem :=
  remote.map (fun r =>
    if r.orgId == orgId && r.id == wiId then { r with completedWork := some value }
    else r)

/-- `AzureDevOpsService.updateCompletedWork(org, workItemId,
additionalHours)` (web-app variant, `src/services/azureDevOps.ts`):
reads the item's current `CompletedWork` (missing value treated as 0),
computes `newTotal = current + additionalHours` and PATCHes it.
Returns the call result, the PATCH issued (none when the work item was
not found — the method returns before any PATCH), and the remote store
after the call.`patchOk` decides whether the PATCH response is `ok`. -/
def updateCompletedWork (patchOk : String → Nat → Bool)
    (remote : List RemoteWorkItem) (org : AdoOrganization)
    (workItemId : Nat) (additionalHours : ℚ) :
    UpdateResult × Option PatchCall × List RemoteWorkItem :=
  match getRemoteItem remote org.id workItemId with
  | none =>
    ({ success := false, newTotal := 0, error := some "Work item not found" },
     none, remote)
  | some item =>
    let currentCompleted := item.completedWork.getD 0
    let newTotal := currentCompleted + additionalHours
    let patched : PatchCall :=
      { orgId := org.id, workItemId := workItemId, value := newTotal }
    if patchOk org.id workItemId then
      ({ success := true, newTotal := newTotal, error := none },
       some patched,
       setRemoteCompletedWork remote org.id workItemId newTotal)
    else
      ({ success := false, newTotal := currentCompleted,
         error := some "Failed to update" },
       some patched, remote)

/-- `SyncLog` record as written by `handleSync`
(ISO `syncedAt` modelled as an instant). -/
structure SyncLog where
  id : String
  workItemId : Nat
  workItemTitle : String
  organizationId : String
  hoursSynced : ℚ
  syncedAt : Int
  success : Bool
  errorMessage : Option String
deriving Repr, DecidableEq

/-- One aggregation bucket of `handleSync`'s `groupedByWorkItem`
object. -/
structure SyncGroup where
  organizationId : String
  workItemId : Nat
  workItemTitle : String
  totalMinutes : Int
  entryIds : List String
deriving Repr, DecidableEq

/-- One step of the grouping `reduce`: fold `entry` into the bucket for
`(organizationId, workItemId)`, creating it when absent.

The source keys buckets by the string `` `${organizationId}-${workItemId}` ``;
since the decimal rendering of `workItemId` contains no dash, distinct
pairs always produce distinct keys, and a key containing a dash is never
an integer-like property name, so `Object.values` returns the buckets in
insertion order — grouping over the pair with order-preserving insertion
is an exact model. -/
def addToGroups (acc : List SyncGroup) (e : TimeEntry) : List SyncGroup :=
  if acc.any (fun g =>
      g.organizationId == e.organizationId && g.workItemId == e.workItemId) then
    acc.map (fun g =>
      if g.organizationId == e.organizationId && g.workItemId == e.workItemId then
        { g with totalMinutes := g.totalMinutes + e.durationMinutes
                 entryIds := g.entryIds ++ [e.id] }
      else g)
  else
    acc ++ [{ organizationId := e.organizationId
              workItemId := e.workItemId
              workItemTitle := e.workItemTitle
              totalMinutes := e.durationMinutes
              entryIds := [e.id] }]

/-- `handleSync`'s grouping `reduce` over the filtered entries. -/
def groupEntries (entries : List TimeEntry) : List SyncGroup :=
  entries.foldl addToGroups []

/-- The per-entry update of `db.markEntriesSynced`: an entry whose id is
listed gets `syncedToAdo := true` and its `syncedAt` / `updatedAt`
stamped; others are untouched. -/
def markFun (ids : List String) (now : Int) (e : TimeEntry) : TimeEntry :=
  if ids.contains e.id then
    { e with syncedToAdo := true, syncedAt := some now, updatedAt := now }
  else e

/-- `db.markEntriesSynced(ids)`: every stored entry whose id is listed
gets `syncedToAdo := true` and its `syncedAt` / `updatedAt` stamped
(the matching `UPDATE_TIME_ENTRY` dispatches mirror this on the
in-memory list). -/
def markEntriesSynced (ids : List String) (now : Int)
    (entries : List TimeEntry) : List TimeEntry :=
  entries.map (markFun ids now)

/-- The observable outcome of a `handleSync` pass: the entry list, the
remote store, the `SyncLog` records appended (oldest first), the PATCH
requests issued (oldest first), and the success / failure group
counts. -/
structure SyncPassResult where
  entries : List TimeEntry
  remote : List RemoteWorkItem
  logs : List SyncLog
  patches : List PatchCall
  success : Nat
  failed : Nat
deriving Repr, DecidableEq

/-- The body of `handleSync`'s `for (const group of ...)` loop:
resolve the organization (a miss only counts the group failed and
continues — no log, no network call); otherwise convert the group's
minutes to hours, call `updateCompletedWork`, append a `SyncLog` record
with the call's outcome, and on success mark the group's entries synced.
`mkLogId` supplies the `crypto.randomUUID()` for the log record. -/
def syncOneGroup (patchOk : String → Nat → Bool) (mkLogId : Nat → String)
    (now : Int) (organizations : List AdoOrganization)
    (st : SyncPassResult) (g : SyncGroup) : SyncPassResult :=
  match organizations.find? (fun o => o.id == g.organizationId) with
  | none => { st with failed := st.failed + 1 }
  | some org =>
    let hoursToSync : ℚ := (g.totalMinutes : ℚ) / 60
    let (result, patched, remote') :=
      updateCompletedWork patchOk st.remote org g.workItemId hoursToSync
    let log : SyncLog :=
      { id := mkLogId st.logs.length
        workItemId := g.workItemId
        workItemTitle := g.workItemTitle
        organizationId := org.id
        hoursSynced := hoursToSync
        syncedAt := now
        success := result.success
        errorMessage := result.error }
    let st := { st with remote := remote'
                        logs := st.logs ++ [log]
                        patches := st.patches ++ patched.toList }
    if result.success then
      { st with entries := markEntriesSynced g.entryIds now st.entries
                success := st.success + 1 }
    else
      { st with failed := st.failed + 1 }

/-- The filter at the top of `handleSync`: selected and still
unsynced. -/
def entriesToSync (timeEntries : List TimeEntry)
    (selectedIds : List String) : List TimeEntry :=
  timeEntries.filter (fun e => selectedIds.contains e.id && !e.syncedToAdo)

/-- `handleSync` (`src/components/TimeEntries.tsx`): filter the
selection to still-unsynced entries (empty selection returns
immediately), group them by `(organizationId, workItemId)`, and process
the groups in order. -/
def handleSync (patchOk : String → Nat → Bool) (mkLogId : Nat → String)
    (now : Int) (timeEntries : List TimeEntry) (selectedIds : List String)
    (organizations : List AdoOrganization)
    (remote : List RemoteWorkItem) : SyncPassResult :=
  let toSync := entriesToSync timeEntries selectedIds
  if toSync.isEmpty then
    { entries := timeEntries, remote := remote, logs := [], patches := []
      success := 0, failed := 0 }
  else
    (groupEntries toSync).foldl (syncOneGroup patchOk mkLogId now organizations)
      { entries := timeEntries, remote := remote, logs := [], patches := []
        success := 0, failed := 0 }

/-- The ids of the currently unsynced entries, the set selected by
"Select All Unsynced" for a sync-all pass. -/
def unsyncedIds (entries : List TimeEntry) : List String :=
  (entries.filter (fun e => !e.syncedToAdo)).map (fun e => e.id)

/-! ## The timer subsystem as a whole

In-memory session, the persisted snapshot written by `persistState()`
(read back by `restoreState()`), and the entry ledger, driven by the
externally reachable operations. A `restart` models a process restart:
the in-memory fields fall back to their initializers while persisted
storage survives. -/

/-- In-memory timer state, the persisted snapshot, and the time-entry
ledger. -/
structure SysState where
  mem : TimerServiceState
  saved : Option SavedTimerState
  ledger : List TimeEntry
deriving Repr, DecidableEq

/-- Process start before any operation: fresh field initializers, empty
storage. -/
def SysState.boot : SysState :=
  { mem := TimerServiceState.initial, saved := none, ledger := [] }

/-- The externally reachable timer operations. -/
inductive TimerOp where
  | start (now : Int) (workItem : WorkItem)
  | pause (now : Int)
  | resume (now : Int)
  | stop (now : Int) (newId : String) (orgs : List AdoOrganization)
  | restore (now : Int)
  | restart
deriving Repr

/-- One timer operation against the whole subsystem. Methods persist a
snapshot exactly where the source calls `persistState()`: after every
actual transition, and not on an early return. `restoreState()` itself
persists nothing. -/
def sysApply (σ : SysState) : TimerOp → SysState
  | .start now wi =>
    let m := start now wi σ.mem
    { mem := m, saved := persistOf m, ledger := σ.ledger }
  | .pause now =>
    if !σ.mem.isRunning || σ.mem.isPaused then σ
    else
      let m := pause now σ.mem
      { mem := m, saved := persistOf m, ledger := σ.ledger }
  | .resume now =>
    match σ.mem.pauseStart with
    | none => σ
    | some _ =>
      if !σ.mem.isRunning || !σ.mem.isPaused then σ
      else
        let m := resume now σ.mem
        { mem := m, saved := persistOf m, ledger := σ.ledger }
  | .stop now newId orgs =>
    match σ.mem.isRunning, σ.mem.startTime, σ.mem.currentWorkItem with
    | true, some _, some _ =>
      let r := stop now newId orgs σ.mem σ.ledger
      { mem := r.1, saved := persistOf r.1, ledger := r.2.1 }
    | _, _, _ => σ
  | .restore now => { σ with mem := restoreState now σ.saved σ.mem }
  | .restart => { σ with mem := TimerServiceState.initial }

/-- Run a sequence of timer operations from a state. -/
def runOps (σ : SysState) (ops : List TimerOp) : SysState :=
  ops.foldl sysApply σ

/-- The session invariant of the specification: paused implies running,
and an open pause start is recorded exactly while paused. -/
def sessionPauseInv (s : TimerServiceState) : Prop :=
  (s.isPaused = true → s.isRunning = true) ∧
  (s.pauseStart ≠ none ↔ s.isPaused = true)

/-- Strengthened induction invariant: the session invariant, plus the
fact that while paused the persisted snapshot also shows a paused
running session (every transition into Paused persists such a
snapshot). -/
def sysInv (σ : SysState) : Prop :=
  sessionPauseInv σ.mem ∧
  (σ.mem.isPaused = true →
    ∃ sv, σ.saved = some sv ∧ sv.isRunning = true ∧ sv.isPaused = true)

/-! ## Derived notions used by the sync statements -/

/-- The grouping key of an entry. -/
def entryKey (e : TimeEntry) : String × Nat :=
  (e.organizationId, e.workItemId)

/-- The grouping key of a bucket. -/
def groupKey (g : SyncGroup) : String × Nat :=
  (g.organizationId, g.workItemId)

/-- The entries of a list carrying a given grouping key. -/
def keyedEntries (entries : List TimeEntry) (k : String × Nat) :
    List TimeEntry :=
  entries.filter (fun e => e.organizationId == k.1 && e.workItemId == k.2)

/-- Whether a group's processing will take the success path of
`syncOneGroup`: its organization resolves, its work item exists
remotely (presence is never changed by `CompletedWork` PATCHes), and
the network lets the PATCH through. -/
def groupSucceeds (patchOk : String → Nat → Bool)
    (orgs : List AdoOrganization) (remote : List RemoteWorkItem)
    (g : SyncGroup) : Bool :=
  (orgs.find? (fun o => o.id == g.organizationId)).isSome &&
  ((getRemoteItem remote g.organizationId g.workItemId).isSome &&
   patchOk g.organizationId g.workItemId)

/-- The entry ids marked synced over a pass: those of the groups that
take the success path. -/
def succIds (patchOk : String → Nat → Bool) (orgs : List AdoOrganization)
    (remote : List RemoteWorkItem) (gs : List SyncGroup) : List String :=
  (gs.filter (groupSucceeds patchOk orgs remote)).flatMap (fun g => g.entryIds)

/-- Correctness of an accumulator of the grouping `reduce` after
consuming the entries `P`: bucket keys are pairwise distinct, each
bucket carries exactly the duration sum and the ids (in order) of the
consumed entries with its key, and every consumed entry has a
bucket. -/
def GroupsSpec (P : List TimeEntry) (acc : List SyncGroup) : Prop :=
  (acc.map groupKey).Nodup ∧
  (∀ g ∈ acc,
    g.totalMinutes =
      ((keyedEntries P (groupKey g)).map (fun e => e.durationMinutes)).sum ∧
    g.entryIds = (keyedEntries P (groupKey g)).map (fun e => e.id)) ∧
  (∀ e ∈ P, ∃ g ∈ acc, groupKey g = entryKey e)

/-- Every entry of the list carrying the given id is marked synced. -/
def entryMarked (i : String) (es : List TimeEntry) : Prop :=
  ∀ e ∈ es, e.id = i → e.syncedToAdo = true

/-- Sample work item used for concrete instantiations. -/
def wiSample : WorkItem :=
  { id := 100, title := "Sample task", type := "Task", state := "Active"
    projectName := "Proj", organizationId := "org1" }

/-- Sample organization used for concrete instantiations. -/
def orgSample : AdoOrganization :=
  { id := "org1", name := "Org One", url := "https://dev.azure.com/one"
    projectName := "Proj", patToken := "tok" }

/-- Sample unsynced time entries on the sample work item, used for
concrete instantiations. -/
def entrySample (newId : String) (minutes : Int) : TimeEntry :=
  { id := newId, workItemId := 100, workItemTitle := "Sample task"
    workItemType := "Task", projectName := "Proj"
    organizationId := "org1", organizationName := "Org One"
    startTime := 0, endTime := 60000 * minutes
    durationMinutes := minutes, syncedToAdo := false
    createdAt := 0, updatedAt := 0 }

/-- Network oracle that lets every PATCH through. -/
def pkAll : String → Nat → Bool := fun _ _ => true

/-- Deterministic id supply standing in for `crypto.randomUUID()` in
concrete instantiations. -/
def mkLog : Nat → String := fun n => "log" ++ toString n

/-- A remote store holding the sample work item with 2 hours of
completed work. -/
def remoteSample : List RemoteWorkItem :=
  [{ orgId := "org1", id := 100, completedWork := some 2 }]

/-! ## Helper lemmas: timer -/

lemma sysInv_boot : sysInv SysState.boot := by
  refine ⟨⟨?_, ?_⟩, ?_⟩ <;>
    simp [SysState.boot, TimerServiceState.initial]

lemma sysInv_step (σ : SysState) (op : TimerOp) (h : sysInv σ) :
    sysInv (sysApply σ op) := by
  obtain ⟨⟨hpr, hps⟩, hsv⟩ := h
  cases op with
  | start now wi =>
    refine ⟨⟨?_, ?_⟩, ?_⟩ <;> simp [sysApply, start]
  | pause now =>
    cases hR : σ.mem.isRunning with
    | false => simpa [sysApply, hR] using ⟨⟨hpr, hps⟩, hsv⟩
    | true =>
      cases hP : σ.mem.isPaused with
      | true => simpa [sysApply, hR, hP] using ⟨⟨hpr, hps⟩, hsv⟩
      | false =>
        refine ⟨⟨?_, ?_⟩, ?_⟩ <;>
          simp [sysApply, pause, persistOf, hR, hP]
  | resume now =>
    cases hPS : σ.mem.pauseStart with
    | none => simpa [sysApply, hPS] using ⟨⟨hpr, hps⟩, hsv⟩
    | some ps =>
      cases hR : σ.mem.isRunning with
      | false => simpa [sysApply, hPS, hR] using ⟨⟨hpr, hps⟩, hsv⟩
      | true =>
        cases hP : σ.mem.isPaused with
        | false => simpa [sysApply, hPS, hR, hP] using ⟨⟨hpr, hps⟩, hsv⟩
        | true =>
          refine ⟨⟨?_, ?_⟩, ?_⟩ <;>
            simp [sysApply, resume, persistOf, hPS, hR, hP]
  | stop now newId orgs =>
    cases hR : σ.mem.isRunning with
    | false => simpa [sysApply, hR] using ⟨⟨hpr, hps⟩, hsv⟩
    | true =>
      cases hST : σ.mem.startTime with
      | none => simpa [sysApply, hR, hST] using ⟨⟨hpr, hps⟩, hsv⟩
      | some st =>
        cases hWI : σ.mem.currentWorkItem with
        | none => simpa [sysApply, hR, hST, hWI] using ⟨⟨hpr, hps⟩, hsv⟩
        | some wi =>
          have hfst : (stop now newId orgs σ.mem σ.ledger).1 =
              TimerServiceState.initial := by
            simp only [stop, hR, hST, hWI]
            split <;> rfl
          refine ⟨⟨?_, ?_⟩, ?_⟩ <;>
            simp [sysApply, hR, hST, hWI, hfst, TimerServiceState.initial]
  | restore now =>
    cases hSV : σ.saved with
    | none =>
      rw [hSV] at hsv
      simpa [sysApply, restoreState, hSV] using ⟨⟨hpr, hps⟩, hsv⟩
    | some sv =>
      rw [hSV] at hsv
      cases hR : sv.isRunning with
      | false => simpa [sysApply, restoreState, hSV, hR] using ⟨⟨hpr, hps⟩, hsv⟩
      | true =>
        cases hST : sv.startTime with
        | none => simpa [sysApply, restoreState, hSV, hR, hST] using ⟨⟨hpr, hps⟩, hsv⟩
        | some st =>
          cases hWI : sv.workItem with
          | none =>
            simpa [sysApply, restoreState, hSV, hR, hST, hWI] using ⟨⟨hpr, hps⟩, hsv⟩
          | some wi =>
            cases hP : sv.isPaused with
            | true =>
              refine ⟨⟨?_, ?_⟩, ?_⟩ <;>
                simp [sysApply, restoreState, hSV, hR, hST, hWI, hP]
            | false =>
              have hpsnone : σ.mem.pauseStart = none := by
                by_contra hne
                have hpt : σ.mem.isPaused = true := hps.mp hne
                obtain ⟨sv', hsv', -, hsvp⟩ := hsv hpt
                cases Option.some.inj hsv'
                rw [hP] at hsvp
                exact Bool.false_ne_true hsvp
              refine ⟨⟨?_, ?_⟩, ?_⟩ <;>
                simp [sysApply, restoreState, hSV, hR, hST, hWI, hP, hpsnone]
  | restart =>
    refine ⟨⟨?_, ?_⟩, ?_⟩ <;> simp [sysApply, TimerServiceState.initial]

lemma sysInv_run (σ : SysState) (h : sysInv σ) (ops : List TimerOp) :
    sysInv (runOps σ ops) := by
  induction ops generalizing σ with
  | nil => exact h
  | cons op ops ih =>
    simp only [runOps, List.foldl_cons]
    exact ih _ (sysInv_step σ op h)

lemma msToRoundedMinutes_thousand (s : Int) :
    msToRoundedMinutes (1000 * s) = secondsToRoundedMinutes s := by
  unfold msToRoundedMinutes secondsToRoundedMinutes
  rw [Int.fdiv_eq_ediv _ (by norm_num), Int.fdiv_eq_ediv _ (by norm_num)]
  rw [show (1000 : ℤ) * s + 30000 = 1000 * (s + 30) by ring,
      show (60000 : ℤ) = 1000 * 60 by norm_num]
  exact Int.mul_ediv_mul_of_pos _ _ (by norm_num)

/-- Closed form of `stop` on a stoppable session. -/
lemma stop_run_eq (now : Int) (newId : String) (orgs : List AdoOrganization)
    (s : TimerServiceState) (st : Int) (wi : WorkItem) (ledger : List TimeEntry)
    (hr : s.isRunning = true) (hst : s.startTime = some st)
    (hwi : s.currentWorkItem = some wi) :
    stop now newId orgs s ledger =
      if msToRoundedMinutes (now - st - effectivePausedMs now s) < 1 then
        (TimerServiceState.initial, ledger, none)
      else
        (TimerServiceState.initial,
         ledger ++ [stopEntry newId orgs wi st now
                      (msToRoundedMinutes (now - st - effectivePausedMs now s))],
         some (stopEntry newId orgs wi st now
                 (msToRoundedMinutes (now - st - effectivePausedMs now s)))) := by
  simp only [stop, hr, hst, hwi, addTimeEntry]

/-! ## Claim theorems: timer -/

/-- C1 (counterexample): the claim says a session whose running time
(excluding pauses) is below 60 seconds is discarded by `stop()` with no
`TimeEntry` and a `null` return. A session started at `0` and stopped
at `45000` ms ran 45 s < 60 s, yet `stop` returns a `TimeEntry` (with
`durationMinutes = 1`, since `Math.round (45000 / 60000) = 1 ≥ 1`). -/
theorem stop_discard_below_sixty_refuted :
    (45000 : Int) - 0 < 60000 ∧
    ((stop 45000 "e1" [] (start 0 wiSample TimerServiceState.initial) []).2.2).map
        (fun e => e.durationMinutes) = some 1 := by
  constructor
  · decide
  · rfl

/-- C1 (amended): on a stoppable session (`isRunning`, a start time and
a work item present), with `ms` the running duration excluding paused
time, `stop()` discards the session — no entry appended, state reset to
the initial (Idle) state, `null` returned — exactly when the duration
rounded to the nearest whole minute is below 1 (that is, `ms < 30000`,
not 60 s as claimed); otherwise it appends exactly one `TimeEntry` with
`durationMinutes` the rounded duration and `syncedToAdo = false`. -/
theorem stop_discards_below_rounded_minute (now : Int) (newId : String)
    (orgs : List AdoOrganization) (s : TimerServiceState) (st : Int)
    (wi : WorkItem) (ledger : List TimeEntry) (ms : Int)
    (hr : s.isRunning = true) (hst : s.startTime = some st)
    (hwi : s.currentWorkItem = some wi)
    (hms : ms = now - st - effectivePausedMs now s) :
    (msToRoundedMinutes ms < 1 →
      stop now newId orgs s ledger = (TimerServiceState.initial, ledger, none)) ∧
    (1 ≤ msToRoundedMinutes ms →
      stop now newId orgs s ledger =
        (TimerServiceState.initial,
         ledger ++ [stopEntry newId orgs wi st now (msToRoundedMinutes ms)],
         some (stopEntry newId orgs wi st now (msToRoundedMinutes ms))) ∧
      (stopEntry newId orgs wi st now (msToRoundedMinutes ms)).durationMinutes =
        msToRoundedMinutes ms ∧
      (stopEntry newId orgs wi st now (msToRoundedMinutes ms)).syncedToAdo = false) := by
  subst hms
  rw [stop_run_eq now newId orgs s st wi ledger hr hst hwi]
  constructor
  · intro hlt
    rw [if_pos hlt]
  · intro hge
    rw [if_neg (by omega)]
    exact ⟨rfl, rfl, rfl⟩

/-- Witness for C1's amended theorem: a 10-second session is discarded
(its rounded duration is 0), a 120-second session produces the entry
with `durationMinutes = 2`, unsynced. -/
theorem stop_discards_below_rounded_minute_witness :
    (stop 10000 "a" [] (start 0 wiSample TimerServiceState.initial) [] =
      (TimerServiceState.initial, [], none)) ∧
    (stop 120000 "b" [] (start 0 wiSample TimerServiceState.initial) [] =
      (TimerServiceState.initial,
       [stopEntry "b" [] wiSample 0 120000 2],
       some (stopEntry "b" [] wiSample 0 120000 2))) := by
  constructor
  · exact (stop_discards_below_rounded_minute 10000 "a" []
      (start 0 wiSample TimerServiceState.initial) 0 wiSample [] 10000
      rfl rfl rfl (by decide)).1 (by decide)
  · have h := (stop_discards_below_rounded_minute 120000 "b" []
      (start 0 wiSample TimerServiceState.initial) 0 wiSample [] 120000
      rfl rfl rfl (by decide)).2 (by decide)
    have h2 : msToRoundedMinutes 120000 = 2 := by decide
    rw [h2] at h
    simpa using h.1

/-- C5: a session started at `t0`, paused after `d1` seconds, resumed
after a further `d2` seconds of pause, and stopped after `d3` more
seconds of running produces (when at least a minute long) a `TimeEntry`
whose `durationMinutes` is `round ((d1 + d3) / 60)` — independent of the
pause length `d2`, which does not occur in the result. -/
theorem pause_symmetry (t0 d1 d2 d3 : Int) (wi : WorkItem) (newId : String)
    (orgs : List AdoOrganization) (ledger : List TimeEntry)
    (h : 1 ≤ secondsToRoundedMinutes (d1 + d3)) :
    stop (t0 + 1000 * d1 + 1000 * d2 + 1000 * d3) newId orgs
        (resume (t0 + 1000 * d1 + 1000 * d2)
          (pause (t0 + 1000 * d1) (start t0 wi TimerServiceState.initial)))
        ledger
      = (TimerServiceState.initial,
         ledger ++ [stopEntry newId orgs wi t0 (t0 + 1000 * d1 + 1000 * d2 + 1000 * d3)
                      (secondsToRoundedMinutes (d1 + d3))],
         some (stopEntry newId orgs wi t0 (t0 + 1000 * d1 + 1000 * d2 + 1000 * d3)
                 (secondsToRoundedMinutes (d1 + d3)))) ∧
    (stopEntry newId orgs wi t0 (t0 + 1000 * d1 + 1000 * d2 + 1000 * d3)
        (secondsToRoundedMinutes (d1 + d3))).durationMinutes
      = secondsToRoundedMinutes (d1 + d3) := by
  have hs3 : resume (t0 + 1000 * d1 + 1000 * d2)
      (pause (t0 + 1000 * d1) (start t0 wi TimerServiceState.initial)) =
      { isRunning := true, isPaused := false, startTime := some t0
        pausedTime := 1000 * d2, pauseStart := none, currentWorkItem := some wi } := by
    simp [start, pause, resume]
  rw [hs3]
  rw [stop_run_eq _ newId orgs _ t0 wi ledger rfl rfl rfl]
  have hms : msToRoundedMinutes
      ((t0 + 1000 * d1 + 1000 * d2 + 1000 * d3) - t0 -
        effectivePausedMs (t0 + 1000 * d1 + 1000 * d2 + 1000 * d3)
          { isRunning := true, isPaused := false, startTime := some t0
            pausedTime := 1000 * d2, pauseStart := none, currentWorkItem := some wi })
      = secondsToRoundedMinutes (d1 + d3) := by
    have harith : (t0 + 1000 * d1 + 1000 * d2 + 1000 * d3) - t0 -
        effectivePausedMs (t0 + 1000 * d1 + 1000 * d2 + 1000 * d3)
          { isRunning := true, isPaused := false, startTime := some t0
            pausedTime := 1000 * d2, pauseStart := none, currentWorkItem := some wi }
        = 1000 * (d1 + d3) := by
      simp [effectivePausedMs]
      ring
    rw [harith, msToRoundedMinutes_thousand]
  rw [hms, if_neg (by omega)]
  exact ⟨rfl, rfl⟩

/-- Witness for C5: the end-to-end scenario — start at 09:00:00, pause
at 09:10:00, resume at 09:15:00, stop at 09:20:00 (600 s + 300 s pause +
300 s) — yields the entry with `durationMinutes = 15`. -/
theorem pause_symmetry_witness :
    ((stop (0 + 1000 * 600 + 1000 * 300 + 1000 * 300) "w5" []
        (resume (0 + 1000 * 600 + 1000 * 300)
          (pause (0 + 1000 * 600) (start 0 wiSample TimerServiceState.initial)))
        []).2.2).map (fun e => e.durationMinutes) = some 15 := by
  have h := pause_symmetry 0 600 300 300 wiSample "w5" [] [] (by decide)
  rw [h.1]
  have h900 : secondsToRoundedMinutes 900 = 15 := by decide
  simp [stopEntry, h900]

/-- C6: in every state reachable from boot by any sequence of `start`,
`pause`, `resume`, `stop` and `restoreState` operations (process
restarts included), `isPaused` implies `isRunning`, and the pause-start
timestamp (`_pauseStart`) is non-null exactly while paused. -/
theorem timer_pause_invariant (ops : List TimerOp) :
    ((runOps SysState.boot ops).mem.isPaused = true →
      (runOps SysState.boot ops).mem.isRunning = true) ∧
    ((runOps SysState.boot ops).mem.pauseStart ≠ none ↔
      (runOps SysState.boot ops).mem.isPaused = true) :=
  (sysInv_run SysState.boot sysInv_boot ops).1

/-- C7: illegal transitions are silent no-ops that leave the session
(and the ledger) entirely unchanged: `pause()` when not running or
already paused, `resume()` when not paused, and `stop()` when not
running (which additionally returns `null`). -/
theorem illegal_transitions_no_op (now₁ now₂ now₃ : Int) (newId : String)
    (orgs : List AdoOrganization) (s : TimerServiceState)
    (ledger : List TimeEntry) :
    (s.isRunning = false ∨ s.isPaused = true → pause now₁ s = s) ∧
    (s.isPaused = false → resume now₂ s = s) ∧
    (s.isRunning = false → stop now₃ newId orgs s ledger = (s, ledger, none)) := by
  obtain ⟨r, p, stO, pt, ps, wiO⟩ := s
  refine ⟨?_, ?_, ?_⟩
  · rintro (h | h) <;> cases r <;> cases p <;>
      first
      | rfl
      | exact Bool.noConfusion h
  · intro h
    cases ps <;> cases r <;> cases p <;>
      first
      | rfl
      | exact Bool.noConfusion h
  · intro h
    cases r with
    | true => exact Bool.noConfusion h
    | false => cases stO <;> cases wiO <;> rfl

/-- Witness for C7: from the Idle boot state, `pause`, `resume` and
`stop` all leave the state untouched and `stop` returns `null`. -/
theorem illegal_transitions_no_op_witness :
    pause 5 TimerServiceState.initial = TimerServiceState.initial ∧
    resume 6 TimerServiceState.initial = TimerServiceState.initial ∧
    stop 7 "w7" [orgSample] TimerServiceState.initial [] =
      (TimerServiceState.initial, [], none) := by
  obtain ⟨h1, h2, h3⟩ :=
    illegal_transitions_no_op 5 6 7 "w7" [orgSample] TimerServiceState.initial []
  exact ⟨h1 (Or.inl rfl), h2 rfl, h3 rfl⟩

/-- C8: `restoreState` run at process start (state Idle): an absent or
not-running snapshot leaves the timer Idle; a running snapshot with a
start time and work item rehydrates `startTime`, `pausedTime` and the
work item exactly, and sets the pause start to the restore instant
`now` exactly when the snapshot was paused. -/
theorem restoreState_rehydrates (now st : Int) (sv : SavedTimerState)
    (wi : WorkItem) :
    (restoreState now none TimerServiceState.initial =
      TimerServiceState.initial) ∧
    (sv.isRunning = false →
      restoreState now (some sv) TimerServiceState.initial =
        TimerServiceState.initial) ∧
    (sv.isRunning = true → sv.startTime = some st → sv.workItem = some wi →
      restoreState now (some sv) TimerServiceState.initial =
        { isRunning := true
          isPaused := sv.isPaused
          startTime := some st
          pausedTime := sv.pausedTime
          pauseStart := if sv.isPaused then some now else none
          currentWorkItem := some wi }) := by
  obtain ⟨svr, svp, svst, svpt, svwi⟩ := sv
  refine ⟨rfl, ?_, ?_⟩
  · intro h
    cases svr with
    | true => exact Bool.noConfusion h
    | false => cases svst <;> cases svwi <;> rfl
  · intro hR hST hWI
    cases svr with
    | false => exact Bool.noConfusion hR
    | true =>
      cases svst with
      | none => exact Option.noConfusion hST
      | some x =>
        cases svwi with
        | none => exact Option.noConfusion hWI
        | some w =>
          cases Option.some.inj hST
          cases Option.some.inj hWI
          cases svp <;> rfl

/-- Witness for C8: restoring a paused running snapshot at instant 777
rehydrates the persisted fields and stamps the pause start with 777;
an absent and a non-running snapshot leave the timer Idle. -/
theorem restoreState_rehydrates_witness :
    restoreState 777 none TimerServiceState.initial =
      TimerServiceState.initial ∧
    restoreState 777
        (some { isRunning := false, isPaused := false, startTime := some 1
                pausedTime := 2, workItem := some wiSample })
        TimerServiceState.initial = TimerServiceState.initial ∧
    restoreState 777
        (some { isRunning := true, isPaused := true, startTime := some 100
                pausedTime := 5000, workItem := some wiSample })
        TimerServiceState.initial =
      { isRunning := true, isPaused := true, startTime := some 100
        pausedTime := 5000, pauseStart := some 777
        currentWorkItem := some wiSample } := by
  refine ⟨(restoreState_rehydrates 777 0
      { isRunning := false, isPaused := false, startTime := none
        pausedTime := 0, workItem := none } wiSample).1, ?_, ?_⟩
  · exact (restoreState_rehydrates 777 1
      { isRunning := false, isPaused := false, startTime := some 1
        pausedTime := 2, workItem := some wiSample } wiSample).2.1 rfl
  · have h := (restoreState_rehydrates 777 100
      { isRunning := true, isPaused := true, startTime := some 100
        pausedTime := 5000, workItem := some wiSample } wiSample).2.2
      rfl rfl rfl
    simpa using h

/-- C9: `start(workItem)` while a session is already running does not
fail and does not preserve the in-flight session: the state is
unconditionally replaced (fresh `startTime = now`, zero accumulated
pause, the new work item), a running snapshot is persisted, and the
ledger is unchanged — no `TimeEntry` is created for the discarded
session. -/
theorem start_overwrites_running_session (now : Int) (wi : WorkItem)
    (σ : SysState) (h : σ.mem.isRunning = true) :
    sysApply σ (TimerOp.start now wi) =
      { mem := { isRunning := true, isPaused := false, startTime := some now
                 pausedTime := 0, pauseStart := none, currentWorkItem := some wi }
        saved := some { isRunning := true, isPaused := false
                        startTime := some now, pausedTime := 0
                        workItem := some wi }
        ledger := σ.ledger } := rfl

/-- Witness for C9: restarting the timer on a new work item over a
running session replaces the session and leaves the ledger alone. -/
theorem start_overwrites_running_session_witness :
    sysApply
        { mem := { isRunning := true, isPaused := false, startTime := some 0
                   pausedTime := 0, pauseStart := none
                   currentWorkItem := some wiSample }
          saved := none, ledger := [] }
        (TimerOp.start 99 wiSample) =
      { mem := { isRunning := true, isPaused := false, startTime := some 99
                 pausedTime := 0, pauseStart := none
                 currentWorkItem := some wiSample }
        saved := some { isRunning := true, isPaused := false
                        startTime := some 99, pausedTime := 0
                        workItem := some wiSample }
        ledger := [] } :=
  start_overwrites_running_session 99 wiSample
    { mem := { isRunning := true, isPaused := false, startTime := some 0
               pausedTime := 0, pauseStart := none
               currentWorkItem := some wiSample }
      saved := none, ledger := [] } rfl

/-- C10: the `elapsedSeconds` query returns 0 whenever no session was
started (`startTime` is null), regardless of every other session field;
as a pure function of the state it mutates nothing. -/
theorem elapsedSeconds_zero_without_start (now : Int) (s : TimerServiceState)
    (h : s.startTime = none) : elapsedSeconds now s = 0 := by
  simp [elapsedSeconds, h]

/-- Witness for C10: even on a nonsense state (paused, nonzero
accumulated pause, an open pause start, a work item) with no start time,
the elapsed query yields 0. -/
theorem elapsedSeconds_zero_without_start_witness :
    elapsedSeconds 123456
      { isRunning := true, isPaused := true, startTime := none
        pausedTime := 999, pauseStart := some 5
        currentWorkItem := some wiSample } = 0 :=
  elapsedSeconds_zero_without_start 123456
    { isRunning := true, isPaused := true, startTime := none
      pausedTime := 999, pauseStart := some 5
      currentWorkItem := some wiSample } rfl

/-! ## Helper lemmas: marking -/

lemma markFun_id (ids : List String) (now : Int) (e : TimeEntry) :
    (markFun ids now e).id = e.id := by
  unfold markFun
  split <;> rfl

lemma markFun_syncedToAdo (ids : List String) (now : Int) (e : TimeEntry) :
    (markFun ids now e).syncedToAdo = (e.syncedToAdo || ids.contains e.id) := by
  by_cases h : e.id ∈ ids <;> simp [markFun, h]

lemma markFun_of_not_mem (ids : List String) (now : Int) (e : TimeEntry)
    (h : ¬ e.id ∈ ids) : markFun ids now e = e := by
  simp [markFun, h]

lemma entryMarked_mark (i : String) (S : List String) (now : Int)
    (es : List TimeEntry) (h : entryMarked i es) :
    entryMarked i (markEntriesSynced S now es) := by
  intro e he hid
  obtain ⟨e₀, he₀, rfl⟩ := List.mem_map.mp he
  have hid0 : e₀.id = i := (markFun_id S now e₀) ▸ hid
  rw [markFun_syncedToAdo, h e₀ he₀ hid0]
  simp

lemma entryMarked_of_mark_mem (i : String) (S : List String) (now : Int)
    (es : List TimeEntry) (h : i ∈ S) :
    entryMarked i (markEntriesSynced S now es) := by
  intro e he hid
  obtain ⟨e₀, he₀, rfl⟩ := List.mem_map.mp he
  have hid0 : e₀.id = i := (markFun_id S now e₀) ▸ hid
  rw [markFun_syncedToAdo, hid0]
  simp [h]

lemma markEntriesSynced_filter_id (S : List String) (now : Int)
    (es : List TimeEntry) (i : String) (h : ¬ i ∈ S) :
    (markEntriesSynced S now es).filter (fun e => e.id == i) =
      es.filter (fun e => e.id == i) := by
  induction es with
  | nil => rfl
  | cons e es ih =>
    simp only [markEntriesSynced, List.map_cons, List.filter_cons] at *
    by_cases hid : e.id = i
    · have hm : markFun S now e = e := markFun_of_not_mem S now e (by rw [hid]; exact h)
      rw [hm, if_pos (by simpa using hid), if_pos (by simpa using hid)]
      exact congrArg (e :: ·) ih
    · have hideq : ((markFun S now e).id == i) = false := by
        rw [markFun_id]
        simpa using hid
      rw [if_neg (by simp [hideq]), if_neg (by simpa using hid)]
      exact ih

/-! ## Helper lemmas: remote store -/

lemma find?_map_comm {α : Type} (f : α → α) (p : α → Bool)
    (hf : ∀ a, p (f a) = p a) (l : List α) :
    (l.map f).find? p = (l.find? p).map f := by
  induction l with
  | nil => rfl
  | cons a l ih =>
    simp only [List.map_cons, List.find?]
    rw [hf a]
    cases hp : p a
    · simpa using ih
    · simp

lemma getRemoteItem_set (remote : List RemoteWorkItem) (o : String) (i : Nat)
    (v : ℚ) (o' : String) (i' : Nat) :
    getRemoteItem (setRemoteCompletedWork remote o i v) o' i' =
      (getRemoteItem remote o' i').map
        (fun r => if r.orgId == o && r.id == i then
            { r with completedWork := some v } else r) := by
  unfold getRemoteItem setRemoteCompletedWork
  exact find?_map_comm _ _
    (fun r => by by_cases hc : (r.orgId == o && r.id == i) = true <;> simp [hc])
    remote

lemma getRemoteItem_key (remote : List RemoteWorkItem) (o : String) (i : Nat)
    (r : RemoteWorkItem) (h : getRemoteItem remote o i = some r) :
    r.orgId = o ∧ r.id = i := by
  have := List.find?_some h
  simpa using this

lemma getRemoteItem_set_ne (remote : List RemoteWorkItem) (o : String)
    (i : Nat) (v : ℚ) (o' : String) (i' : Nat) (h : ¬(o' = o ∧ i' = i)) :
    getRemoteItem (setRemoteCompletedWork remote o i v) o' i' =
      getRemoteItem remote o' i' := by
  rw [getRemoteItem_set]
  cases hf : getRemoteItem remote o' i' with
  | none => rfl
  | some r =>
    obtain ⟨h1, h2⟩ := getRemoteItem_key remote o' i' r hf
    have hc : ¬(r.orgId = o ∧ r.id = i) := by
      rintro ⟨ha, hb⟩
      apply h
      constructor
      · rw [← h1]; exact ha
      · rw [← h2]; exact hb
    simp [hc]

/-! ## Helper lemmas: one sync group -/

lemma find?_org_id (orgs : List AdoOrganization) (g : SyncGroup)
    (org : AdoOrganization)
    (h : orgs.find? (fun o => o.id == g.organizationId) = some org) :
    org.id = g.organizationId := by
  have := List.find?_some h
  simpa using this

lemma syncOneGroup_org_missing (pk : String → Nat → Bool) (mk : Nat → String)
    (now : Int) (orgs : List AdoOrganization) (st : SyncPassResult)
    (g : SyncGroup)
    (h : orgs.find? (fun o => o.id == g.organizationId) = none) :
    syncOneGroup pk mk now orgs st g = { st with failed := st.failed + 1 } := by
  simp [syncOneGroup, h]

lemma syncOneGroup_item_missing (pk : String → Nat → Bool) (mk : Nat → String)
    (now : Int) (orgs : List AdoOrganization) (st : SyncPassResult)
    (g : SyncGroup) (org : AdoOrganization)
    (horg : orgs.find? (fun o => o.id == g.organizationId) = some org)
    (hitem : getRemoteItem st.remote g.organizationId g.workItemId = none) :
    syncOneGroup pk mk now orgs st g =
      { st with
        logs := st.logs ++
          [{ id := mk st.logs.length, workItemId := g.workItemId
             workItemTitle := g.workItemTitle, organizationId := org.id
             hoursSynced := (g.totalMinutes : ℚ) / 60, syncedAt := now
             success := false, errorMessage := some "Work item not found" }]
        failed := st.failed + 1 } := by
  have hoid := find?_org_id orgs g org horg
  simp [syncOneGroup, horg, updateCompletedWork, hoid, hitem]

lemma syncOneGroup_patch_failed (pk : String → Nat → Bool) (mk : Nat → String)
    (now : Int) (orgs : List AdoOrganization) (st : SyncPassResult)
    (g : SyncGroup) (org : AdoOrganization) (item : RemoteWorkItem)
    (horg : orgs.find? (fun o => o.id == g.organizationId) = some org)
    (hitem : getRemoteItem st.remote g.organizationId g.workItemId = some item)
    (hpk : pk g.organizationId g.workItemId = false) :
    syncOneGroup pk mk now orgs st g =
      { st with
        logs := st.logs ++
          [{ id := mk st.logs.length, workItemId := g.workItemId
             workItemTitle := g.workItemTitle, organizationId := org.id
             hoursSynced := (g.totalMinutes : ℚ) / 60, syncedAt := now
             success := false, errorMessage := some "Failed to update" }]
        patches := st.patches ++
          [{ orgId := org.id, workItemId := g.workItemId
             value := item.completedWork.getD 0 + (g.totalMinutes : ℚ) / 60 }]
        failed := st.failed + 1 } := by
  have hoid := find?_org_id orgs g org horg
  simp [syncOneGroup, horg, updateCompletedWork, hoid, hitem, hpk]

lemma syncOneGroup_success (pk : String → Nat → Bool) (mk : Nat → String)
    (now : Int) (orgs : List AdoOrganization) (st : SyncPassResult)
    (g : SyncGroup) (org : AdoOrganization) (item : RemoteWorkItem)
    (horg : orgs.find? (fun o => o.id == g.organizationId) = some org)
    (hitem : getRemoteItem st.remote g.organizationId g.workItemId = some item)
    (hpk : pk g.organizationId g.workItemId = true) :
    syncOneGroup pk mk now orgs st g =
      { entries := markEntriesSynced g.entryIds now st.entries
        remote := setRemoteCompletedWork st.remote g.organizationId g.workItemId
          (item.completedWork.getD 0 + (g.totalMinutes : ℚ) / 60)
        logs := st.logs ++
          [{ id := mk st.logs.length, workItemId := g.workItemId
             workItemTitle := g.workItemTitle, organizationId := org.id
             hoursSynced := (g.totalMinutes : ℚ) / 60, syncedAt := now
             success := true, errorMessage := none }]
        patches := st.patches ++
          [{ orgId := org.id, workItemId := g.workItemId
             value := item.completedWork.getD 0 + (g.totalMinutes : ℚ) / 60 }]
        success := st.success + 1
        failed := st.failed } := by
  have hoid := find?_org_id orgs g org horg
  simp [syncOneGroup, horg, updateCompletedWork, hoid, hitem, hpk]

/-! ## Helper lemmas: grouping -/

lemma keyed_matches (e : TimeEntry) (k : String × Nat) :
    ((e.organizationId == k.1 && e.workItemId == k.2) = true) ↔ entryKey e = k := by
  simp [entryKey, Prod.ext_iff]

lemma group_matches (g : SyncGroup) (e : TimeEntry) :
    ((g.organizationId == e.organizationId && g.workItemId == e.workItemId) = true)
      ↔ groupKey g = entryKey e := by
  simp [groupKey, entryKey, Prod.ext_iff]

lemma keyedEntries_append (P Q : List TimeEntry) (k : String × Nat) :
    keyedEntries (P ++ Q) k = keyedEntries P k ++ keyedEntries Q k := by
  simp [keyedEntries]

lemma keyedEntries_singleton_self (e : TimeEntry) :
    keyedEntries [e] (entryKey e) = [e] := by
  unfold keyedEntries
  rw [List.filter_singleton, (keyed_matches e (entryKey e)).mpr rfl]
  rfl

lemma keyedEntries_singleton_ne (e : TimeEntry) (k : String × Nat)
    (h : entryKey e ≠ k) : keyedEntries [e] k = [] := by
  unfold keyedEntries
  rw [List.filter_singleton]
  have hc : (e.organizationId == k.1 && e.workItemId == k.2) = false := by
    by_contra hb
    rw [Bool.not_eq_false] at hb
    exact h ((keyed_matches e k).mp hb)
  rw [hc]
  rfl

lemma groupsSpec_nil : GroupsSpec [] [] := by
  refine ⟨by simp, by simp, by simp⟩

lemma groupKey_update (g : SyncGroup) (e : TimeEntry) :
    groupKey (if g.organizationId == e.organizationId &&
        g.workItemId == e.workItemId then
      { g with totalMinutes := g.totalMinutes + e.durationMinutes
               entryIds := g.entryIds ++ [e.id] }
      else g) = groupKey g := by
  split <;> rfl

lemma groupsSpec_step (P : List TimeEntry) (acc : List SyncGroup)
    (e : TimeEntry) (h : GroupsSpec P acc) :
    GroupsSpec (P ++ [e]) (addToGroups acc e) := by
  obtain ⟨hnd, hgr, hcov⟩ := h
  unfold addToGroups
  by_cases hex : acc.any (fun g =>
      g.organizationId == e.organizationId && g.workItemId == e.workItemId) = true
  · rw [if_pos hex]
    refine ⟨?_, ?_, ?_⟩
    · rw [List.map_map]
      have hmc : acc.map (groupKey ∘ fun g =>
          if g.organizationId == e.organizationId && g.workItemId == e.workItemId then
            { g with totalMinutes := g.totalMinutes + e.durationMinutes
                     entryIds := g.entryIds ++ [e.id] }
          else g) = acc.map groupKey :=
        List.map_congr_left (fun g _ => groupKey_update g e)
      rw [hmc]
      exact hnd
    · intro g' hg'
      obtain ⟨g, hg, rfl⟩ := List.mem_map.mp hg'
      obtain ⟨htot, hids⟩ := hgr g hg
      by_cases hm : (g.organizationId == e.organizationId &&
          g.workItemId == e.workItemId) = true
      · rw [if_pos hm]
        have hk : groupKey g = entryKey e := (group_matches g e).mp hm
        have hkey2 : keyedEntries (P ++ [e]) (groupKey g) =
            keyedEntries P (groupKey g) ++ [e] := by
          rw [keyedEntries_append, hk, keyedEntries_singleton_self]
        constructor
        · show g.totalMinutes + e.durationMinutes =
            ((keyedEntries (P ++ [e]) (groupKey g)).map
              (fun x => x.durationMinutes)).sum
          rw [hkey2, List.map_append, List.sum_append, ← htot]
          simp
        · show g.entryIds ++ [e.id] =
            (keyedEntries (P ++ [e]) (groupKey g)).map (fun x => x.id)
          rw [hkey2, List.map_append, ← hids]
          rfl
      · rw [if_neg hm]
        have hk : groupKey g ≠ entryKey e := fun hc => hm ((group_matches g e).mpr hc)
        have hkey2 : keyedEntries (P ++ [e]) (groupKey g) =
            keyedEntries P (groupKey g) := by
          rw [keyedEntries_append,
            keyedEntries_singleton_ne e _ (fun hc => hk hc.symm), List.append_nil]
        exact ⟨by rw [hkey2]; exact htot, by rw [hkey2]; exact hids⟩
    · intro e' he'
      rcases List.mem_append.mp he' with hP | he
      · obtain ⟨g, hg, hkg⟩ := hcov e' hP
        exact ⟨_, List.mem_map_of_mem _ hg, by rw [groupKey_update g e]; exact hkg⟩
      · have he'' : e' = e := by simpa using he
        subst he''
        obtain ⟨g, hg, hm⟩ := List.any_eq_true.mp hex
        exact ⟨_, List.mem_map_of_mem _ hg,
          by rw [groupKey_update g e']; exact (group_matches g e').mp hm⟩
  · rw [if_neg hex]
    have hnotin : ∀ g ∈ acc, groupKey g ≠ entryKey e := by
      intro g hg hc
      exact hex (List.any_eq_true.mpr ⟨g, hg, (group_matches g e).mpr hc⟩)
    have hPempty : keyedEntries P (entryKey e) = [] := by
      unfold keyedEntries
      rw [List.filter_eq_nil_iff]
      intro a ha hpa
      have hka : entryKey a = entryKey e := (keyed_matches a (entryKey e)).mp hpa
      obtain ⟨g, hg, hkg⟩ := hcov a ha
      exact hnotin g hg (hkg.trans hka)
    refine ⟨?_, ?_, ?_⟩
    · rw [List.map_append]
      refine List.Nodup.append hnd (by simp) ?_
      intro k hk hkmem
      have hke : k = entryKey e := by simpa using hkmem
      obtain ⟨g, hg, hkg⟩ := List.mem_map.mp hk
      exact hnotin g hg (by rw [hkg, hke])
    · intro g' hg'
      rcases List.mem_append.mp hg' with hg | hg
      · obtain ⟨htot, hids⟩ := hgr g' hg
        have hk := hnotin g' hg
        have hkey2 : keyedEntries (P ++ [e]) (groupKey g') =
            keyedEntries P (groupKey g') := by
          rw [keyedEntries_append,
            keyedEntries_singleton_ne e _ (fun hc => hk hc.symm), List.append_nil]
        exact ⟨by rw [hkey2]; exact htot, by rw [hkey2]; exact hids⟩
      · have hg'' : g' =
            { organizationId := e.organizationId, workItemId := e.workItemId
              workItemTitle := e.workItemTitle
              totalMinutes := e.durationMinutes, entryIds := [e.id] } := by
          simpa using hg
        subst hg''
        have hkey2 : keyedEntries (P ++ [e]) (entryKey e) = [e] := by
          rw [keyedEntries_append, hPempty, keyedEntries_singleton_self,
            List.nil_append]
        constructor
        · show e.durationMinutes =
            ((keyedEntries (P ++ [e]) (entryKey e)).map
              (fun x => x.durationMinutes)).sum
          rw [hkey2]
          simp
        · show [e.id] =
            (keyedEntries (P ++ [e]) (entryKey e)).map (fun x => x.id)
          rw [hkey2]
          rfl
    · intro e' he'
      rcases List.mem_append.mp he' with hP | he
      · obtain ⟨g, hg, hkg⟩ := hcov e' hP
        exact ⟨g, List.mem_append_left _ hg, hkg⟩
      · have he'' : e' = e := by simpa using he
        subst he''
        exact ⟨{ organizationId := e'.organizationId, workItemId := e'.workItemId
                 workItemTitle := e'.workItemTitle
                 totalMinutes := e'.durationMinutes, entryIds := [e'.id] },
          List.mem_append_right _ (by simp), rfl⟩

lemma groupsSpec_foldl (F : List TimeEntry) : ∀ (P : List TimeEntry)
    (acc : List SyncGroup), GroupsSpec P acc →
    GroupsSpec (P ++ F) (F.foldl addToGroups acc) := by
  induction F with
  | nil =>
    intro P acc h
    simpa using h
  | cons e F ih =>
    intro P acc h
    have h2 := ih (P ++ [e]) (addToGroups acc e) (groupsSpec_step P acc e h)
    simpa [List.append_assoc] using h2

lemma groupEntries_spec (F : List TimeEntry) : GroupsSpec F (groupEntries F) := by
  have h := groupsSpec_foldl F [] [] groupsSpec_nil
  simpa [groupEntries] using h

/-! ## Helper lemmas: the group-processing loop -/

lemma syncOneGroup_counts (pk : String → Nat → Bool) (mk : Nat → String)
    (now : Int) (orgs : List AdoOrganization) (st : SyncPassResult)
    (g : SyncGroup) :
    (syncOneGroup pk mk now orgs st g).success +
      (syncOneGroup pk mk now orgs st g).failed =
    st.success + st.failed + 1 := by
  cases horg : orgs.find? (fun o => o.id == g.organizationId) with
  | none =>
    rw [syncOneGroup_org_missing pk mk now orgs st g horg]
    dsimp only
    omega
  | some org =>
    cases hitem : getRemoteItem st.remote g.organizationId g.workItemId with
    | none =>
      rw [syncOneGroup_item_missing pk mk now orgs st g org horg hitem]
      dsimp only
      omega
    | some item =>
      cases hpk : pk g.organizationId g.workItemId with
      | false =>
        rw [syncOneGroup_patch_failed pk mk now orgs st g org item horg hitem hpk]
        dsimp only
        omega
      | true =>
        rw [syncOneGroup_success pk mk now orgs st g org item horg hitem hpk]
        dsimp only
        omega

lemma syncOneGroup_failed_mono (pk : String → Nat → Bool) (mk : Nat → String)
    (now : Int) (orgs : List AdoOrganization) (st : SyncPassResult)
    (g : SyncGroup) :
    st.failed ≤ (syncOneGroup pk mk now orgs st g).failed := by
  cases horg : orgs.find? (fun o => o.id == g.organizationId) with
  | none =>
    rw [syncOneGroup_org_missing pk mk now orgs st g horg]
    dsimp only
    omega
  | some org =>
    cases hitem : getRemoteItem st.remote g.organizationId g.workItemId with
    | none =>
      rw [syncOneGroup_item_missing pk mk now orgs st g org horg hitem]
      dsimp only
      omega
    | some item =>
      cases hpk : pk g.organizationId g.workItemId with
      | false =>
        rw [syncOneGroup_patch_failed pk mk now orgs st g org item horg hitem hpk]
        dsimp only
        omega
      | true =>
        rw [syncOneGroup_success pk mk now orgs st g org item horg hitem hpk]

lemma syncOneGroup_entries_mark_or_id (pk : String → Nat → Bool)
    (mk : Nat → String) (now : Int) (orgs : List AdoOrganization)
    (st : SyncPassResult) (g : SyncGroup) :
    (syncOneGroup pk mk now orgs st g).entries = st.entries ∨
    (syncOneGroup pk mk now orgs st g).entries =
      markEntriesSynced g.entryIds now st.entries := by
  cases horg : orgs.find? (fun o => o.id == g.organizationId) with
  | none =>
    rw [syncOneGroup_org_missing pk mk now orgs st g horg]
    exact Or.inl rfl
  | some org =>
    cases hitem : getRemoteItem st.remote g.organizationId g.workItemId with
    | none =>
      rw [syncOneGroup_item_missing pk mk now orgs st g org horg hitem]
      exact Or.inl rfl
    | some item =>
      cases hpk : pk g.organizationId g.workItemId with
      | false =>
        rw [syncOneGroup_patch_failed pk mk now orgs st g org item horg hitem hpk]
        exact Or.inl rfl
      | true =>
        rw [syncOneGroup_success pk mk now orgs st g org item horg hitem hpk]
        exact Or.inr rfl

lemma syncOneGroup_no_fail_marks (pk : String → Nat → Bool)
    (mk : Nat → String) (now : Int) (orgs : List AdoOrganization)
    (st : SyncPassResult) (g : SyncGroup)
    (h : (syncOneGroup pk mk now orgs st g).failed = st.failed) :
    (syncOneGroup pk mk now orgs st g).entries =
      markEntriesSynced g.entryIds now st.entries := by
  cases horg : orgs.find? (fun o => o.id == g.organizationId) with
  | none =>
    rw [syncOneGroup_org_missing pk mk now orgs st g horg] at h
    exact absurd h (by simp)
  | some org =>
    cases hitem : getRemoteItem st.remote g.organizationId g.workItemId with
    | none =>
      rw [syncOneGroup_item_missing pk mk now orgs st g org horg hitem] at h
      exact absurd h (by simp)
    | some item =>
      cases hpk : pk g.organizationId g.workItemId with
      | false =>
        rw [syncOneGroup_patch_failed pk mk now orgs st g org item horg hitem hpk] at h
        exact absurd h (by simp)
      | true =>
        rw [syncOneGroup_success pk mk now orgs st g org item horg hitem hpk]

lemma foldl_failed_mono (pk : String → Nat → Bool) (mk : Nat → String)
    (now : Int) (orgs : List AdoOrganization) (gs : List SyncGroup) :
    ∀ st : SyncPassResult,
      st.failed ≤ (gs.foldl (syncOneGroup pk mk now orgs) st).failed := by
  induction gs with
  | nil => intro st; exact le_refl _
  | cons g gs ih =>
    intro st
    rw [List.foldl_cons]
    exact le_trans (syncOneGroup_failed_mono pk mk now orgs st g) (ih _)

lemma foldl_counts (pk : String → Nat → Bool) (mk : Nat → String)
    (now : Int) (orgs : List AdoOrganization) (gs : List SyncGroup) :
    ∀ st : SyncPassResult,
      (gs.foldl (syncOneGroup pk mk now orgs) st).success +
        (gs.foldl (syncOneGroup pk mk now orgs) st).failed =
      st.success + st.failed + gs.length := by
  induction gs with
  | nil => intro st; simp
  | cons g gs ih =>
    intro st
    rw [List.foldl_cons]
    rw [ih (syncOneGroup pk mk now orgs st g),
      syncOneGroup_counts pk mk now orgs st g]
    simp only [List.length_cons]
    omega

lemma entryMarked_syncOneGroup (pk : String → Nat → Bool) (mk : Nat → String)
    (now : Int) (orgs : List AdoOrganization) (st : SyncPassResult)
    (g : SyncGroup) (i : String) (h : entryMarked i st.entries) :
    entryMarked i (syncOneGroup pk mk now orgs st g).entries := by
  rcases syncOneGroup_entries_mark_or_id pk mk now orgs st g with he | he <;> rw [he]
  · exact h
  · exact entryMarked_mark i _ now st.entries h

lemma entryMarked_foldl (pk : String → Nat → Bool) (mk : Nat → String)
    (now : Int) (orgs : List AdoOrganization) (gs : List SyncGroup) :
    ∀ (st : SyncPassResult) (i : String), entryMarked i st.entries →
      entryMarked i ((gs.foldl (syncOneGroup pk mk now orgs) st).entries) := by
  induction gs with
  | nil => intro st i h; exact h
  | cons g gs ih =>
    intro st i h
    rw [List.foldl_cons]
    exact ih _ i (entryMarked_syncOneGroup pk mk now orgs st g i h)

lemma foldl_failed_zero_marks (pk : String → Nat → Bool) (mk : Nat → String)
    (now : Int) (orgs : List AdoOrganization) (gs : List SyncGroup) :
    ∀ st : SyncPassResult,
      (gs.foldl (syncOneGroup pk mk now orgs) st).failed = 0 →
      ∀ g ∈ gs, ∀ i ∈ g.entryIds,
        entryMarked i ((gs.foldl (syncOneGroup pk mk now orgs) st).entries) := by
  induction gs with
  | nil => simp
  | cons g gs ih =>
    intro st h0 g' hg' i hi
    rw [List.foldl_cons] at h0 ⊢
    have h1 : (syncOneGroup pk mk now orgs st g).failed = 0 :=
      Nat.le_zero.mp (h0 ▸ foldl_failed_mono pk mk now orgs gs _)
    rcases List.mem_cons.mp hg' with rfl | hg''
    · have hsf : st.failed = 0 :=
        Nat.le_zero.mp (h1 ▸ syncOneGroup_failed_mono pk mk now orgs st g')
      have hmm := syncOneGroup_no_fail_marks pk mk now orgs st g'
        (by rw [h1, hsf])
      have hm1 : entryMarked i (syncOneGroup pk mk now orgs st g').entries := by
        rw [hmm]
        exact entryMarked_of_mark_mem i _ now _ hi
      exact entryMarked_foldl pk mk now orgs gs _ i hm1
    · exact ih _ h0 g' hg'' i hi

lemma foldl_entries_synced_or_mem (pk : String → Nat → Bool)
    (mk : Nat → String) (now : Int) (orgs : List AdoOrganization)
    (gs : List SyncGroup) :
    ∀ st : SyncPassResult,
      ∀ e ∈ (gs.foldl (syncOneGroup pk mk now orgs) st).entries,
        e.syncedToAdo = true ∨ e ∈ st.entries := by
  induction gs with
  | nil => intro st e he; exact Or.inr he
  | cons g gs ih =>
    intro st e he
    rw [List.foldl_cons] at he
    rcases ih _ e he with h | h
    · exact Or.inl h
    · rcases syncOneGroup_entries_mark_or_id pk mk now orgs st g with he1 | he1
      · rw [he1] at h
        exact Or.inr h
      · rw [he1] at h
        obtain ⟨e₀, he₀, rfl⟩ := List.mem_map.mp h
        by_cases hc : e₀.id ∈ g.entryIds
        · left
          rw [markFun_syncedToAdo]
          simp [hc]
        · right
          rw [markFun_of_not_mem _ _ _ hc]
          exact he₀

/-! ## Helper lemmas: a whole pass -/

lemma entriesToSync_unsynced (es : List TimeEntry) (sel : List String) :
    ∀ e ∈ entriesToSync es sel, e.syncedToAdo = false := by
  intro e he
  have h := (List.mem_filter.mp he).2
  simp only [Bool.and_eq_true, Bool.not_eq_true'] at h
  exact h.2

lemma handleSync_all_synced (pk : String → Nat → Bool) (mk : Nat → String)
    (now : Int) (es : List TimeEntry) (sel : List String)
    (orgs : List AdoOrganization) (remote : List RemoteWorkItem)
    (h : ∀ e ∈ es, e.syncedToAdo = true) :
    handleSync pk mk now es sel orgs remote =
      { entries := es, remote := remote, logs := [], patches := []
        success := 0, failed := 0 } := by
  have hempty : entriesToSync es sel = [] := by
    unfold entriesToSync
    rw [List.filter_eq_nil_iff]
    intro e he
    simp [h e he]
  simp [handleSync, hempty]

lemma mem_unsyncedIds (es : List TimeEntry) (e : TimeEntry) (he : e ∈ es)
    (hs : e.syncedToAdo = false) : e.id ∈ unsyncedIds es := by
  unfold unsyncedIds
  exact List.mem_map_of_mem _ (List.mem_filter.mpr ⟨he, by simp [hs]⟩)

lemma handleSync_failed_zero_all_synced (pk : String → Nat → Bool)
    (mk : Nat → String) (now : Int) (es : List TimeEntry)
    (orgs : List AdoOrganization) (remote : List RemoteWorkItem)
    (h0 : (handleSync pk mk now es (unsyncedIds es) orgs remote).failed = 0) :
    ∀ e ∈ (handleSync pk mk now es (unsyncedIds es) orgs remote).entries,
      e.syncedToAdo = true := by
  intro e he
  by_contra hne
  have hsy : e.syncedToAdo = false := by
    cases hb : e.syncedToAdo
    · rfl
    · exact absurd hb hne
  by_cases hemp : (entriesToSync es (unsyncedIds es)).isEmpty = true
  · have hnil : entriesToSync es (unsyncedIds es) = [] := List.isEmpty_iff.mp hemp
    rw [handleSync, if_pos hemp] at he
    have hmem : e ∈ entriesToSync es (unsyncedIds es) :=
      List.mem_filter.mpr ⟨he, by simp [mem_unsyncedIds es e he hsy, hsy]⟩
    rw [hnil] at hmem
    exact absurd hmem (List.not_mem_nil e)
  · have hrun : handleSync pk mk now es (unsyncedIds es) orgs remote =
        (groupEntries (entriesToSync es (unsyncedIds es))).foldl
          (syncOneGroup pk mk now orgs)
          { entries := es, remote := remote, logs := [], patches := []
            success := 0, failed := 0 } := by
      rw [handleSync, if_neg hemp]
    rw [hrun] at he h0
    have hmem : e ∈ es := by
      rcases foldl_entries_synced_or_mem pk mk now orgs _ _ e he with h | h
      · rw [hsy] at h
        exact absurd h (by simp)
      · exact h
    have hF : e ∈ entriesToSync es (unsyncedIds es) :=
      List.mem_filter.mpr ⟨hmem, by simp [mem_unsyncedIds es e hmem hsy, hsy]⟩
    obtain ⟨hnd, hgr, hcov⟩ := groupEntries_spec (entriesToSync es (unsyncedIds es))
    obtain ⟨g, hg, hkg⟩ := hcov e hF
    have hid : e.id ∈ g.entryIds := by
      rw [(hgr g hg).2]
      refine List.mem_map_of_mem _ ?_
      rw [hkg]
      exact List.mem_filter.mpr ⟨hF, (keyed_matches e (entryKey e)).mpr rfl⟩
    have hmarked := foldl_failed_zero_marks pk mk now orgs _ _ h0 g hg e.id hid
    have hfin := hmarked e he rfl
    rw [hsy] at hfin
    exact absurd hfin (by simp)

/-! ## Helper lemmas: keys untouched by foreign groups -/

lemma key_beq_false_of_ne (a : String) (b : Nat) (k : String × Nat)
    (h : (a, b) ≠ k) : (a == k.1 && b == k.2) = false := by
  by_contra hb
  rw [Bool.not_eq_false, Bool.and_eq_true] at hb
  exact h (Prod.ext_iff.mpr ⟨by simpa using hb.1, by simpa using hb.2⟩)

lemma syncOneGroup_foreign (pk : String → Nat → Bool) (mk : Nat → String)
    (now : Int) (orgs : List AdoOrganization) (st : SyncPassResult)
    (g : SyncGroup) (k : String × Nat) (hk : groupKey g ≠ k) :
    ((syncOneGroup pk mk now orgs st g).patches.filter
        (fun p => p.orgId == k.1 && p.workItemId == k.2) =
      st.patches.filter (fun p => p.orgId == k.1 && p.workItemId == k.2)) ∧
    ((syncOneGroup pk mk now orgs st g).logs.filter
        (fun L => L.organizationId == k.1 && L.workItemId == k.2) =
      st.logs.filter (fun L => L.organizationId == k.1 && L.workItemId == k.2)) ∧
    getRemoteItem (syncOneGroup pk mk now orgs st g).remote k.1 k.2 =
      getRemoteItem st.remote k.1 k.2 := by
  have hbeq : (g.organizationId == k.1 && g.workItemId == k.2) = false :=
    key_beq_false_of_ne _ _ k hk
  cases horg : orgs.find? (fun o => o.id == g.organizationId) with
  | none =>
    rw [syncOneGroup_org_missing pk mk now orgs st g horg]
    exact ⟨rfl, rfl, rfl⟩
  | some org =>
    have hoid := find?_org_id orgs g org horg
    cases hitem : getRemoteItem st.remote g.organizationId g.workItemId with
    | none =>
      rw [syncOneGroup_item_missing pk mk now orgs st g org horg hitem]
      refine ⟨rfl, ?_, rfl⟩
      dsimp only
      rw [List.filter_append]
      simp [hoid, hbeq]
    | some item =>
      cases hpk : pk g.organizationId g.workItemId with
      | false =>
        rw [syncOneGroup_patch_failed pk mk now orgs st g org item horg hitem hpk]
        refine ⟨?_, ?_, rfl⟩
        · dsimp only
          rw [List.filter_append]
          simp [hoid, hbeq]
        · dsimp only
          rw [List.filter_append]
          simp [hoid, hbeq]
      | true =>
        rw [syncOneGroup_success pk mk now orgs st g org item horg hitem hpk]
        refine ⟨?_, ?_, ?_⟩
        · dsimp only
          rw [List.filter_append]
          simp [hoid, hbeq]
        · dsimp only
          rw [List.filter_append]
          simp [hoid, hbeq]
        · dsimp only
          exact getRemoteItem_set_ne _ _ _ _ _ _
            (fun hc => hk (Prod.ext_iff.mpr ⟨hc.1.symm, hc.2.symm⟩))

lemma foldl_foreign (pk : String → Nat → Bool) (mk : Nat → String)
    (now : Int) (orgs : List AdoOrganization) (gs : List SyncGroup)
    (k : String × Nat) (hall : ∀ g ∈ gs, groupKey g ≠ k) :
    ∀ st : SyncPassResult,
      ((gs.foldl (syncOneGroup pk mk now orgs) st).patches.filter
          (fun p => p.orgId == k.1 && p.workItemId == k.2) =
        st.patches.filter (fun p => p.orgId == k.1 && p.workItemId == k.2)) ∧
      ((gs.foldl (syncOneGroup pk mk now orgs) st).logs.filter
          (fun L => L.organizationId == k.1 && L.workItemId == k.2) =
        st.logs.filter (fun L => L.organizationId == k.1 && L.workItemId == k.2)) ∧
      getRemoteItem (gs.foldl (syncOneGroup pk mk now orgs) st).remote k.1 k.2 =
        getRemoteItem st.remote k.1 k.2 := by
  induction gs with
  | nil => intro st; exact ⟨rfl, rfl, rfl⟩
  | cons g gs ih =>
    intro st
    rw [List.foldl_cons]
    have hg := syncOneGroup_foreign pk mk now orgs st g k
      (hall g (List.mem_cons_self g gs))
    have hrest := ih (fun g' hg' => hall g' (List.mem_cons_of_mem g hg'))
      (syncOneGroup pk mk now orgs st g)
    exact ⟨hrest.1.trans hg.1, hrest.2.1.trans hg.2.1, hrest.2.2.trans hg.2.2⟩

lemma foldl_filter_id (pk : String → Nat → Bool) (mk : Nat → String)
    (now : Int) (orgs : List AdoOrganization) (gs : List SyncGroup)
    (i : String) (hall : ∀ g ∈ gs, ¬ i ∈ g.entryIds) :
    ∀ st : SyncPassResult,
      (gs.foldl (syncOneGroup pk mk now orgs) st).entries.filter
          (fun e => e.id == i) =
        st.entries.filter (fun e => e.id == i) := by
  induction gs with
  | nil => intro st; rfl
  | cons g gs ih =>
    intro st
    rw [List.foldl_cons]
    have hrest := ih (fun g' hg' => hall g' (List.mem_cons_of_mem g hg'))
      (syncOneGroup pk mk now orgs st g)
    refine hrest.trans ?_
    rcases syncOneGroup_entries_mark_or_id pk mk now orgs st g with he | he <;> rw [he]
    exact markEntriesSynced_filter_id g.entryIds now st.entries i
      (hall g (List.mem_cons_self g gs))

lemma keyed_mem_key (F : List TimeEntry) (k : String × Nat) (e : TimeEntry)
    (h : e ∈ keyedEntries F k) : e ∈ F ∧ entryKey e = k := by
  have hm := List.mem_filter.mp h
  exact ⟨hm.1, (keyed_matches e k).mp hm.2⟩

lemma group_ids_disjoint (F : List TimeEntry)
    (hF : (F.map (fun e => e.id)).Nodup) (k k' : String × Nat) (hkk : k ≠ k')
    (i : String) (h1 : i ∈ (keyedEntries F k).map (fun e => e.id)) :
    ¬ i ∈ (keyedEntries F k').map (fun e => e.id) := by
  intro h2
  obtain ⟨e₁, he₁, hi₁⟩ := List.mem_map.mp h1
  obtain ⟨e₂, he₂, hi₂⟩ := List.mem_map.mp h2
  obtain ⟨hm₁, hk₁⟩ := keyed_mem_key F k e₁ he₁
  obtain ⟨hm₂, hk₂⟩ := keyed_mem_key F k' e₂ he₂
  have he : e₁ = e₂ :=
    List.inj_on_of_nodup_map hF hm₁ hm₂ (hi₁.trans hi₂.symm)
  subst he
  exact hkk (hk₁.symm.trans hk₂)

lemma entriesToSync_ids_nodup (es : List TimeEntry) (sel : List String)
    (h : (es.map (fun e => e.id)).Nodup) :
    ((entriesToSync es sel).map (fun e => e.id)).Nodup :=
  ((List.filter_sublist es).map (fun e => e.id)).nodup h

/-! ## Claim theorems: sync -/

/-- C3: synced entries are excluded from every sync pass before any
remote call (the filter keeps only unsynced selected entries), and after
a fully successful `sync(all)` pass, a second `sync(all)` pass (with no
entries added in between) issues no PATCH, writes no log, changes no
entry and leaves the remote store — hence the remote total — exactly as
the first pass left it. -/
theorem sync_idempotent (pk₁ pk₂ : String → Nat → Bool)
    (mk₁ mk₂ : Nat → String) (now₁ now₂ : Int) (es : List TimeEntry)
    (orgs₁ orgs₂ : List AdoOrganization) (remote : List RemoteWorkItem)
    (hfail : (handleSync pk₁ mk₁ now₁ es (unsyncedIds es) orgs₁ remote).failed = 0) :
    (∀ (sel : List String), ∀ e ∈ entriesToSync es sel, e.syncedToAdo = false) ∧
    handleSync pk₂ mk₂ now₂
        (handleSync pk₁ mk₁ now₁ es (unsyncedIds es) orgs₁ remote).entries
        (unsyncedIds (handleSync pk₁ mk₁ now₁ es (unsyncedIds es) orgs₁ remote).entries)
        orgs₂
        (handleSync pk₁ mk₁ now₁ es (unsyncedIds es) orgs₁ remote).remote =
      { entries := (handleSync pk₁ mk₁ now₁ es (unsyncedIds es) orgs₁ remote).entries
        remote := (handleSync pk₁ mk₁ now₁ es (unsyncedIds es) orgs₁ remote).remote
        logs := [], patches := [], success := 0, failed := 0 } := by
  constructor
  · exact fun sel e he => entriesToSync_unsynced es sel e he
  · exact handleSync_all_synced pk₂ mk₂ now₂ _ _ orgs₂ _
      (handleSync_failed_zero_all_synced pk₁ mk₁ now₁ es orgs₁ remote hfail)

/-- Witness for C3: one unsynced 30-minute entry, a resolvable
organization, the work item present remotely and a network that lets
everything through — the first pass succeeds, and a second sync-all pass
is a no-op record with no patches or logs. -/
theorem sync_idempotent_witness :
    handleSync pkAll mkLog 6
        (handleSync pkAll mkLog 5 [entrySample "e1" 30]
          (unsyncedIds [entrySample "e1" 30]) [orgSample] remoteSample).entries
        (unsyncedIds (handleSync pkAll mkLog 5 [entrySample "e1" 30]
          (unsyncedIds [entrySample "e1" 30]) [orgSample] remoteSample).entries)
        [orgSample]
        (handleSync pkAll mkLog 5 [entrySample "e1" 30]
          (unsyncedIds [entrySample "e1" 30]) [orgSample] remoteSample).remote =
      { entries := (handleSync pkAll mkLog 5 [entrySample "e1" 30]
          (unsyncedIds [entrySample "e1" 30]) [orgSample] remoteSample).entries
        remote := (handleSync pkAll mkLog 5 [entrySample "e1" 30]
          (unsyncedIds [entrySample "e1" 30]) [orgSample] remoteSample).remote
        logs := [], patches := [], success := 0, failed := 0 } :=
  (sync_idempotent pkAll pkAll mkLog mkLog 5 6 [entrySample "e1" 30]
    [orgSample] [orgSample] remoteSample (by decide)).2

/-- C2: a sync pass groups the selected still-unsynced entries by
`(organizationId, workItemId)` — each group's `totalMinutes` is the sum
of its members' durations and its `entryIds` are exactly their ids —
and for every group whose organization resolves and whose work item
exists remotely, the pass issues exactly one PATCH for that work item,
writing the current remote `CompletedWork` value (a missing value read
as 0) plus the group's summed minutes converted to hours; when the
PATCH goes through, every member entry is marked synced, and when it
fails, none are (entry ids assumed globally distinct). -/
theorem sync_groups_one_patch (pk : String → Nat → Bool) (mk : Nat → String)
    (now : Int) (es : List TimeEntry) (sel : List String)
    (orgs : List AdoOrganization) (remote : List RemoteWorkItem)
    (hids : (es.map (fun e => e.id)).Nodup) :
    ∀ g ∈ groupEntries (entriesToSync es sel),
      (g.totalMinutes =
        ((keyedEntries (entriesToSync es sel) (groupKey g)).map
          (fun e => e.durationMinutes)).sum ∧
       g.entryIds =
        (keyedEntries (entriesToSync es sel) (groupKey g)).map (fun e => e.id)) ∧
      ∀ org, orgs.find? (fun o => o.id == g.organizationId) = some org →
      ∀ item, getRemoteItem remote g.organizationId g.workItemId = some item →
        ((handleSync pk mk now es sel orgs remote).patches.filter
            (fun p => p.orgId == g.organizationId &&
              p.workItemId == g.workItemId) =
          [{ orgId := g.organizationId, workItemId := g.workItemId
             value := item.completedWork.getD 0 + (g.totalMinutes : ℚ) / 60 }]) ∧
        (pk g.organizationId g.workItemId = true →
          ∀ e ∈ (handleSync pk mk now es sel orgs remote).entries,
            e.id ∈ g.entryIds → e.syncedToAdo = true) ∧
        (pk g.organizationId g.workItemId = false →
          ∀ e ∈ (handleSync pk mk now es sel orgs remote).entries,
            e.id ∈ g.entryIds → e.syncedToAdo = false) := by
  intro g hg
  obtain ⟨hnd, hgr, hcov⟩ := groupEntries_spec (entriesToSync es sel)
  refine ⟨hgr g hg, ?_⟩
  intro org horg item hitem
  have hoid := find?_org_id orgs g org horg
  have hFids : ((entriesToSync es sel).map (fun e => e.id)).Nodup :=
    entriesToSync_ids_nodup es sel hids
  have hge : ¬ (entriesToSync es sel).isEmpty = true := by
    intro hemp
    rw [List.isEmpty_iff.mp hemp] at hg
    simp [groupEntries] at hg
  have hrun : handleSync pk mk now es sel orgs remote =
      (groupEntries (entriesToSync es sel)).foldl (syncOneGroup pk mk now orgs)
        { entries := es, remote := remote, logs := [], patches := []
          success := 0, failed := 0 } := by
    rw [handleSync, if_neg hge]
  obtain ⟨l₁, l₂, hsplit⟩ := List.append_of_mem hg
  have hmem₁ : ∀ g' ∈ l₁, g' ∈ groupEntries (entriesToSync es sel) := by
    intro g' hg'
    rw [hsplit]
    exact List.mem_append_left _ hg'
  have hmem₂ : ∀ g' ∈ l₂, g' ∈ groupEntries (entriesToSync es sel) := by
    intro g' hg'
    rw [hsplit]
    exact List.mem_append_right _ (List.mem_cons_of_mem g hg')
  have hndk : ((l₁.map groupKey) ++ groupKey g :: (l₂.map groupKey)).Nodup := by
    have hh := hnd
    rw [hsplit] at hh
    simpa using hh
  have hmid := (List.nodup_cons.mp (List.nodup_middle.mp hndk)).1
  have hfor₁ : ∀ g' ∈ l₁, groupKey g' ≠ groupKey g := by
    intro g' hg' hc
    exact hmid (List.mem_append_left _ (hc ▸ List.mem_map_of_mem groupKey hg'))
  have hfor₂ : ∀ g' ∈ l₂, groupKey g' ≠ groupKey g := by
    intro g' hg' hc
    exact hmid (List.mem_append_right _ (hc ▸ List.mem_map_of_mem groupKey hg'))
  rw [hrun, hsplit, List.foldl_append, List.foldl_cons]
  set st0 : SyncPassResult :=
    { entries := es, remote := remote, logs := [], patches := []
      success := 0, failed := 0 } with hst0
  set st1 := l₁.foldl (syncOneGroup pk mk now orgs) st0 with hst1
  have hT1 := foldl_foreign pk mk now orgs l₁ (groupKey g) hfor₁ st0
  have hitem1 : getRemoteItem st1.remote g.organizationId g.workItemId =
      some item := by
    rw [← hst1] at hT1
    exact hT1.2.2.trans hitem
  have hpatch1 : st1.patches.filter
      (fun p => p.orgId == g.organizationId && p.workItemId == g.workItemId) =
      [] := by
    rw [← hst1] at hT1
    exact hT1.1
  have hppass : ∀ (q : ℚ),
      (List.filter (fun p => p.orgId == g.organizationId &&
          p.workItemId == g.workItemId)
        [({ orgId := org.id, workItemId := g.workItemId, value := q } :
          PatchCall)]) =
      [{ orgId := g.organizationId, workItemId := g.workItemId, value := q }] := by
    intro q
    simp [hoid]
  cases hpk : pk g.organizationId g.workItemId with
  | true =>
    have hstep := syncOneGroup_success pk mk now orgs st1 g org item horg hitem1 hpk
    have hT2 := foldl_foreign pk mk now orgs l₂ (groupKey g) hfor₂
      (syncOneGroup pk mk now orgs st1 g)
    simp only [groupKey] at hT2
    refine ⟨?_, ?_, ?_⟩
    · rw [hT2.1, hstep]
      dsimp only
      rw [List.filter_append, hpatch1, List.nil_append, hppass]
    · intro _ e he hid
      have hm2 : entryMarked e.id (syncOneGroup pk mk now orgs st1 g).entries := by
        rw [hstep]
        exact entryMarked_of_mark_mem e.id g.entryIds now st1.entries hid
      exact entryMarked_foldl pk mk now orgs l₂ _ e.id hm2 e he rfl
    · intro hfalse
      exact Bool.noConfusion hfalse
  | false =>
    have hstep := syncOneGroup_patch_failed pk mk now orgs st1 g org item horg hitem1 hpk
    have hT2 := foldl_foreign pk mk now orgs l₂ (groupKey g) hfor₂
      (syncOneGroup pk mk now orgs st1 g)
    simp only [groupKey] at hT2
    refine ⟨?_, ?_, ?_⟩
    · rw [hT2.1, hstep]
      dsimp only
      rw [List.filter_append, hpatch1, List.nil_append, hppass]
    · intro htrue
      exact Bool.noConfusion htrue
    · intro _ e he hid
      have hdis₁ : ∀ g' ∈ l₁, ¬ e.id ∈ g'.entryIds := by
        intro g' hg'
        rw [(hgr g' (hmem₁ g' hg')).2]
        refine group_ids_disjoint (entriesToSync es sel) hFids
          (groupKey g) (groupKey g') (fun hc => hfor₁ g' hg' hc.symm) e.id ?_
        rw [← (hgr g hg).2]
        exact hid
      have hdis₂ : ∀ g' ∈ l₂, ¬ e.id ∈ g'.entryIds := by
        intro g' hg'
        rw [(hgr g' (hmem₂ g' hg')).2]
        refine group_ids_disjoint (entriesToSync es sel) hFids
          (groupKey g) (groupKey g') (fun hc => hfor₂ g' hg' hc.symm) e.id ?_
        rw [← (hgr g hg).2]
        exact hid
      have htr₁ : st1.entries.filter (fun x => x.id == e.id) =
          es.filter (fun x => x.id == e.id) := by
        rw [hst1]
        exact foldl_filter_id pk mk now orgs l₁ e.id hdis₁ st0
      have htr₂ : (l₂.foldl (syncOneGroup pk mk now orgs)
          (syncOneGroup pk mk now orgs st1 g)).entries.filter
          (fun x => x.id == e.id) = es.filter (fun x => x.id == e.id) := by
        rw [foldl_filter_id pk mk now orgs l₂ e.id hdis₂
          (syncOneGroup pk mk now orgs st1 g), hstep]
        exact htr₁
      have hein : e ∈ es.filter (fun x => x.id == e.id) := by
        rw [← htr₂]
        exact List.mem_filter.mpr ⟨he, by simp⟩
      have hees : e ∈ es := (List.mem_filter.mp hein).1
      obtain ⟨e', he', hide'⟩ := List.mem_map.mp ((hgr g hg).2 ▸ hid)
      have heF : e' ∈ entriesToSync es sel := (keyed_mem_key _ _ e' he').1
      have hee' : e = e' :=
        List.inj_on_of_nodup_map hids hees
          (List.mem_of_mem_filter heF) hide'.symm
      rw [hee']
      exact entriesToSync_unsynced es sel e' heF

/-- Witness for C2: three unsynced entries of 10, 20 and 30 minutes on
the same (org1, #100) work item, with the remote value at 2.0 hours,
produce exactly one PATCH writing `2 + 60/60 = 3` hours, and all three
entries are marked synced. -/
theorem sync_groups_one_patch_witness :
    ((handleSync pkAll mkLog 7
        [entrySample "a" 10, entrySample "b" 20, entrySample "c" 30]
        ["a", "b", "c"] [orgSample] remoteSample).patches.filter
      (fun p => p.orgId == "org1" && p.workItemId == 100)) =
      [{ orgId := "org1", workItemId := 100, value := 3 }] ∧
    ∀ e ∈ (handleSync pkAll mkLog 7
        [entrySample "a" 10, entrySample "b" 20, entrySample "c" 30]
        ["a", "b", "c"] [orgSample] remoteSample).entries,
      e.id ∈ ["a", "b", "c"] → e.syncedToAdo = true := by
  have h := sync_groups_one_patch pkAll mkLog 7
    [entrySample "a" 10, entrySample "b" 20, entrySample "c" 30]
    ["a", "b", "c"] [orgSample] remoteSample (by decide)
    { organizationId := "org1", workItemId := 100
      workItemTitle := "Sample task", totalMinutes := 60
      entryIds := ["a", "b", "c"] } (by decide)
  have h2 := h.2 orgSample rfl
    { orgId := "org1", id := 100, completedWork := some 2 } rfl
  constructor
  · refine h2.1.trans ?_
    norm_num
  · intro e he hid
    exact h2.2.1 rfl e he hid

/-- C4 (counterexample): the claim says a group whose organization
cannot be resolved is recorded as failed in the SyncLog with an
"organization not found" error. On a selection with one unsynced entry
and no stored organizations, the pass counts one failed group but
writes no SyncLog record at all. -/
theorem sync_org_missing_no_log_counterexample :
    (handleSync pkAll mkLog 0 [entrySample "e1" 30] ["e1"] [] []).failed = 1 ∧
    (handleSync pkAll mkLog 0 [entrySample "e1" 30] ["e1"] [] []).logs = [] := by
  exact ⟨rfl, rfl⟩

/-- C4 (amended): a group whose organization does not resolve is only
counted failed — no SyncLog record is written for it (none with its
key exists after the pass), no PATCH is issued for its work item, and
its member entries stay unsynced (entry ids assumed globally
distinct); the failure does not abort the pass — every group, this one
included, is counted exactly once: `success + failed` equals the
number of groups. -/
theorem sync_org_missing_isolated (pk : String → Nat → Bool)
    (mk : Nat → String) (now : Int) (es : List TimeEntry)
    (sel : List String) (orgs : List AdoOrganization)
    (remote : List RemoteWorkItem)
    (hids : (es.map (fun e => e.id)).Nodup) :
    ((handleSync pk mk now es sel orgs remote).success +
      (handleSync pk mk now es sel orgs remote).failed =
      (groupEntries (entriesToSync es sel)).length) ∧
    ∀ g ∈ groupEntries (entriesToSync es sel),
      orgs.find? (fun o => o.id == g.organizationId) = none →
        ((handleSync pk mk now es sel orgs remote).logs.filter
            (fun L => L.organizationId == g.organizationId &&
              L.workItemId == g.workItemId) = [] ∧
         (handleSync pk mk now es sel orgs remote).patches.filter
            (fun p => p.orgId == g.organizationId &&
              p.workItemId == g.workItemId) = [] ∧
         ∀ e ∈ (handleSync pk mk now es sel orgs remote).entries,
           e.id ∈ g.entryIds → e.syncedToAdo = false) := by
  have hFids : ((entriesToSync es sel).map (fun e => e.id)).Nodup :=
    entriesToSync_ids_nodup es sel hids
  obtain ⟨hnd, hgr, hcov⟩ := groupEntries_spec (entriesToSync es sel)
  constructor
  · by_cases hemp : (entriesToSync es sel).isEmpty = true
    · rw [handleSync, if_pos hemp, List.isEmpty_iff.mp hemp]
      rfl
    · rw [handleSync, if_neg hemp]
      have hc := foldl_counts pk mk now orgs
        (groupEntries (entriesToSync es sel))
        { entries := es, remote := remote, logs := [], patches := []
          success := 0, failed := 0 }
      simpa using hc
  · intro g hg horg
    have hge : ¬ (entriesToSync es sel).isEmpty = true := by
      intro hemp
      rw [List.isEmpty_iff.mp hemp] at hg
      simp [groupEntries] at hg
    have hrun : handleSync pk mk now es sel orgs remote =
        (groupEntries (entriesToSync es sel)).foldl (syncOneGroup pk mk now orgs)
          { entries := es, remote := remote, logs := [], patches := []
            success := 0, failed := 0 } := by
      rw [handleSync, if_neg hge]
    obtain ⟨l₁, l₂, hsplit⟩ := List.append_of_mem hg
    have hmem₁ : ∀ g' ∈ l₁, g' ∈ groupEntries (entriesToSync es sel) := by
      intro g' hg'
      rw [hsplit]
      exact List.mem_append_left _ hg'
    have hmem₂ : ∀ g' ∈ l₂, g' ∈ groupEntries (entriesToSync es sel) := by
      intro g' hg'
      rw [hsplit]
      exact List.mem_append_right _ (List.mem_cons_of_mem g hg')
    have hndk : ((l₁.map groupKey) ++ groupKey g :: (l₂.map groupKey)).Nodup := by
      have hh := hnd
      rw [hsplit] at hh
      simpa using hh
    have hmid := (List.nodup_cons.mp (List.nodup_middle.mp hndk)).1
    have hfor₁ : ∀ g' ∈ l₁, groupKey g' ≠ groupKey g := by
      intro g' hg' hc
      exact hmid (List.mem_append_left _ (hc ▸ List.mem_map_of_mem groupKey hg'))
    have hfor₂ : ∀ g' ∈ l₂, groupKey g' ≠ groupKey g := by
      intro g' hg' hc
      exact hmid (List.mem_append_right _ (hc ▸ List.mem_map_of_mem groupKey hg'))
    rw [hrun, hsplit, List.foldl_append, List.foldl_cons]
    set st0 : SyncPassResult :=
      { entries := es, remote := remote, logs := [], patches := []
        success := 0, failed := 0 } with hst0
    set st1 := l₁.foldl (syncOneGroup pk mk now orgs) st0 with hst1
    have hT1 := foldl_foreign pk mk now orgs l₁ (groupKey g) hfor₁ st0
    simp only [groupKey] at hT1
    rw [← hst1] at hT1
    have hstep := syncOneGroup_org_missing pk mk now orgs st1 g horg
    have hT2 := foldl_foreign pk mk now orgs l₂ (groupKey g) hfor₂
      (syncOneGroup pk mk now orgs st1 g)
    simp only [groupKey] at hT2
    refine ⟨?_, ?_, ?_⟩
    · rw [hT2.2.1, hstep]
      exact hT1.2.1
    · rw [hT2.1, hstep]
      exact hT1.1
    · intro e he hid
      have hdis₁ : ∀ g' ∈ l₁, ¬ e.id ∈ g'.entryIds := by
        intro g' hg'
        rw [(hgr g' (hmem₁ g' hg')).2]
        refine group_ids_disjoint (entriesToSync es sel) hFids
          (groupKey g) (groupKey g') (fun hc => hfor₁ g' hg' hc.symm) e.id ?_
        rw [← (hgr g hg).2]
        exact hid
      have hdis₂ : ∀ g' ∈ l₂, ¬ e.id ∈ g'.entryIds := by
        intro g' hg'
        rw [(hgr g' (hmem₂ g' hg')).2]
        refine group_ids_disjoint (entriesToSync es sel) hFids
          (groupKey g) (groupKey g') (fun hc => hfor₂ g' hg' hc.symm) e.id ?_
        rw [← (hgr g hg).2]
        exact hid
      have htr₁ : st1.entries.filter (fun x => x.id == e.id) =
          es.filter (fun x => x.id == e.id) := by
        rw [hst1]
        exact foldl_filter_id pk mk now orgs l₁ e.id hdis₁ st0
      have htr₂ : (l₂.foldl (syncOneGroup pk mk now orgs)
          (syncOneGroup pk mk now orgs st1 g)).entries.filter
          (fun x => x.id == e.id) = es.filter (fun x => x.id == e.id) := by
        rw [foldl_filter_id pk mk now orgs l₂ e.id hdis₂
          (syncOneGroup pk mk now orgs st1 g), hstep]
        exact htr₁
      have hein : e ∈ es.filter (fun x => x.id == e.id) := by
        rw [← htr₂]
        exact List.mem_filter.mpr ⟨he, by simp⟩
      have hees : e ∈ es := (List.mem_filter.mp hein).1
      obtain ⟨e', he', hide'⟩ := List.mem_map.mp ((hgr g hg).2 ▸ hid)
      have heF : e' ∈ entriesToSync es sel := (keyed_mem_key _ _ e' he').1
      have hee' : e = e' :=
        List.inj_on_of_nodup_map hids hees
          (List.mem_of_mem_filter heF) hide'.symm
      rw [hee']
      exact entriesToSync_unsynced es sel e' heF

/-- Witness for C4's amended theorem: one unsynced entry whose
organization is absent from the stored organizations — the pass counts
one group (failed, so `success + failed = 1` group processed), writes
no log and no patch for its key, and leaves the entry unsynced. -/
theorem sync_org_missing_isolated_witness :
    ((handleSync pkAll mkLog 0 [entrySample "e1" 30] ["e1"] [] []).success +
      (handleSync pkAll mkLog 0 [entrySample "e1" 30] ["e1"] [] []).failed =
      (groupEntries (entriesToSync [entrySample "e1" 30] ["e1"])).length) ∧
    ((handleSync pkAll mkLog 0 [entrySample "e1" 30] ["e1"] [] []).logs.filter
        (fun L => L.organizationId == "org1" && L.workItemId == 100) = [] ∧
     (handleSync pkAll mkLog 0 [entrySample "e1" 30] ["e1"] [] []).patches.filter
        (fun p => p.orgId == "org1" && p.workItemId == 100) = [] ∧
     ∀ e ∈ (handleSync pkAll mkLog 0 [entrySample "e1" 30] ["e1"] [] []).entries,
       e.id ∈ ["e1"] → e.syncedToAdo = false) := by
  have h := sync_org_missing_isolated pkAll mkLog 0 [entrySample "e1" 30]
    ["e1"] [] [] (by decide)
  refine ⟨h.1, ?_⟩
  exact h.2
    { organizationId := "org1", workItemId := 100
      workItemTitle := "Sample task", totalMinutes := 30
      entryIds := ["e1"] } (by decide) rfl

end TimeLogging
